import Mathlib

/-!
Verification development for the Sheets/Notion reconciliation engine
(`src/sync/sync_engine.py`, `src/sync/notion_wrapper.py`, `src/sync/mapping.py`,
`src/Task2.py`).

Modelling conventions:
* Python scalar cell values are modelled by `PyVal` (the values that actually
  occur in engine rows: `None`, `str`, `int`, `bool`).
* Python dictionaries keyed by strings are modelled as association lists built
  with `listSet` (insert-or-replace), looked up with `lookupKey`; keys built
  this way are distinct, matching dict semantics.
* The SHA-256 hex digest is modelled by the injective tagging function
  `sha256Hex`; no property proved here relies on collision behaviour, only on
  the digest being a deterministic function of the hashed string.
* Python float arithmetic in `_backoff_delay` is modelled over `ℚ`; the
  concrete inputs used in witnesses are exactly representable as doubles.
* Remote adapter calls are modelled as oracle functions returning
  `Except String _`; a `.error` models the Python call raising.  The tenacity
  retry wrapper around `_create_or_update_notion` is folded into the oracle:
  the oracle's answer is the post-retry outcome of the call.
-/

/-- A Python scalar value as it occurs in engine row dictionaries. -/
inductive PyVal where
  | none
  | str (s : String)
  | int (n : Int)
  | bool (b : Bool)
deriving DecidableEq, Repr

/-- Python `str(value)` on the scalar values above. -/
def pyStr : PyVal → String
  | .none => "None"
  | .str s => s
  | .int n => toString n
  | .bool b => if b then "True" else "False"

/-- Python truthiness of a scalar value. -/
def PyVal.truthy : PyVal → Bool
  | .none => false
  | .str s => !(s == "")
  | .int n => !(n == 0)
  | .bool b => b

/-- Python truthiness of the result of `dict.get` (absent key gives `None`). -/
def optTruthy : Option PyVal → Bool
  | Option.none => false
  | Option.some v => v.truthy

/-- Python truthiness for an optional string field (`None` and `""` are falsy). -/
def strOptTruthy : Option String → Bool
  | Option.none => false
  | Option.some s => !(s == "")

/-- Python `str.strip()` on the whitespace the engine's inputs contain
(modelled on ASCII whitespace). -/
def pyStrip (s : String) : String :=
  String.mk (((s.data.dropWhile Char.isWhitespace).reverse.dropWhile Char.isWhitespace).reverse)

/-- Python `str.lower()` (modelled on ASCII letters). -/
def pyLower (s : String) : String :=
  String.mk (s.data.map Char.toLower)

/-- Lexicographic code-point comparison, Python's `<` on strings. -/
def charListLt : List Char → List Char → Bool
  | _, [] => false
  | [], _ :: _ => true
  | a :: as, b :: bs => if a < b then true else if b < a then false else charListLt as bs

/-- Python `s < t` on strings. -/
def pyStrLt (s t : String) : Bool :=
  charListLt s.data t.data

/-- Python `s <= t` on strings. -/
def pyStrLe (s t : String) : Bool :=
  !(pyStrLt t s)

/-- Python `str.split(sep)` for a one-character separator. -/
def splitChar (c : Char) : List Char → List (List Char)
  | [] => [[]]
  | x :: xs =>
    if x = c then [] :: splitChar c xs
    else
      match splitChar c xs with
      | [] => [[x]]
      | y :: ys => (x :: y) :: ys

/-- Python `value.split(",")` as strings. -/
def pySplitComma (s : String) : List String :=
  (splitChar ',' s.data).map String.mk

/-- Split on the two-character separator `".."`. -/
def splitDotDot : List Char → List (List Char)
  | [] => [[]]
  | [x] => [[x]]
  | x :: y :: xs =>
    if x = '.' ∧ y = '.' then [] :: splitDotDot xs
    else
      match splitDotDot (y :: xs) with
      | [] => [[x]]
      | z :: zs => (x :: z) :: zs

/-- Python `value.split("..")` as strings. -/
def pySplitDotDot (s : String) : List String :=
  (splitDotDot s.data).map String.mk

/-- `_normalize_value_for_hash` (src/sync/sync_engine.py:29-34):
`None` becomes `""`; `int`/`bool` become `str(value)`; strings are stripped. -/
def _normalize_value_for_hash : PyVal → String
  | .none => ""
  | .int n => pyStr (.int n)
  | .bool b => pyStr (.bool b)
  | .str s => pyStrip s

/-- Association-list lookup for string-keyed Python dicts. -/
def lookupKey {α : Type} : List (String × α) → String → Option α
  | [], _ => Option.none
  | p :: ps, k => if p.1 = k then Option.some p.2 else lookupKey ps k

/-- Insert-or-replace for string-keyed Python dicts (`d[k] = v`). -/
def listSet {α : Type} (l : List (String × α)) (k : String) (v : α) : List (String × α) :=
  if l.any (fun p => p.1 == k) then
    l.map (fun p => if p.1 == k then (k, v) else p)
  else
    l ++ [(k, v)]

/-- A row dictionary: sheet column name to scalar value. -/
def Row : Type := List (String × PyVal)

instance : DecidableEq Row := by
  unfold Row
  infer_instance

/-- `row.get(k)` — `none` when the key is absent. -/
def Row.get? (r : Row) (k : String) : Option PyVal :=
  lookupKey r k

/-- `row.get(k, d)` — Python `dict.get` with a default. -/
def Row.getD (r : Row) (k : String) (d : PyVal) : PyVal :=
  (lookupKey r k).getD d

/-- One configured column mapping (src/sync/config.py:10-14). -/
structure ColumnMapping where
  sheet : String
  notion : String
  type : String
deriving DecidableEq, Repr

/-- Stand-in for the SHA-256 hex digest: a deterministic, injective tagging of
the hashed string.  The engine only ever compares digests for equality. -/
def sha256Hex (s : String) : String :=
  "sha256:" ++ s

/-- `compute_row_hash` (src/sync/sync_engine.py:37-42): join
`"{col.sheet}={normalized value}"` parts with `"|"` and digest the result. -/
def compute_row_hash (columns : List ColumnMapping) (row_values_by_sheet_col : Row) : String :=
  let parts := columns.map (fun col =>
    col.sheet ++ "=" ++ _normalize_value_for_hash ((row_values_by_sheet_col.get? col.sheet).getD .none))
  sha256Hex (String.intercalate "|" parts)

/-- `MetaRecord` (src/sync/sheets_wrapper.py:13-19). -/
structure MetaRecord where
  key : String
  notion_page_id : Option String
  notion_last_edited_time : Option String
  sheets_row_hash : Option String
  last_synced_at : Option String
deriving DecidableEq, Repr

/-- `SyncPolicy` (src/sync/config.py:31-36). -/
structure SyncPolicy where
  key : String
  conflict_strategy : String
  mirror_deletes : Bool
  columns : List ColumnMapping
deriving DecidableEq, Repr

/-- `AppConfig` (src/sync/config.py:39-43).  The Notion/Sheets connection
sub-configs hold credentials and remote identifiers consumed only by the
adapters, so only the sync policy is represented. -/
structure AppConfig where
  sync : SyncPolicy
deriving DecidableEq, Repr

/-- A Notion page as the engine consumes it: remote id, last-edited marker and
the plain-text extraction of each mapped property (the JSON-to-plain codec
`extract_property_plain` is folded into this field). -/
structure Page where
  id : Option String
  last_edited_time : Option String
  properties : List (String × Option String)
deriving DecidableEq, Repr

/-- `SyncEngine._key_value_from_row` (src/sync/sync_engine.py:94-98):
`""` when the key column is absent or `None`, otherwise `str(val)`. -/
def SyncEngine.key_value_from_row (cfg : AppConfig) (row_by_sheet_col : Row) : String :=
  match row_by_sheet_col.get? cfg.sync.key with
  | Option.none => ""
  | Option.some .none => ""
  | Option.some v => pyStr v

/-- A key index: sync key to row dictionary. -/
def Idx : Type := List (String × Row)

instance : DecidableEq Idx := by
  unfold Idx
  infer_instance

/-- `SyncEngine._build_index_by_key` (src/sync/sync_engine.py:100-106). -/
def SyncEngine.build_index_by_key (cfg : AppConfig) (rows : List Row) : Idx :=
  rows.foldl (fun idx r =>
    let k := SyncEngine.key_value_from_row cfg r
    if k ≠ "" then listSet idx k r else idx) []

/-- `SyncEngine._row_from_notion_page` (src/sync/sync_engine.py:78-85): the row
keyed by sheet columns, built from the page's plain property values. -/
def SyncEngine.row_from_notion_page (cfg : AppConfig) (page : Page) : Row :=
  cfg.sync.columns.foldl (fun row col =>
    let v : PyVal :=
      match lookupKey page.properties col.notion with
      | Option.none => .none
      | Option.some Option.none => .none
      | Option.some (Option.some s) => .str s
    listSet row col.sheet v) []

/-- Wrap an optional string as the scalar stored in a row dictionary. -/
def optStrVal : Option String → PyVal
  | Option.none => .none
  | Option.some s => .str s

/-- Read back an optional string stored by `optStrVal`. -/
def pyOptStr : Option PyVal → Option String
  | Option.some (.str s) => Option.some s
  | _ => Option.none

/-- `SyncEngine._build_notion_index` (src/sync/sync_engine.py:108-117): row per
page plus the bookkeeping entries `__notion_page_id__`/`__notion_last_edited__`. -/
def SyncEngine.build_notion_index (cfg : AppConfig) (pages : List Page) : Idx :=
  pages.foldl (fun idx p =>
    let row := SyncEngine.row_from_notion_page cfg p
    let k := SyncEngine.key_value_from_row cfg row
    if k ≠ "" then
      let row := listSet row "__notion_page_id__" (optStrVal p.id)
      let row := listSet row "__notion_last_edited__" (optStrVal p.last_edited_time)
      listSet idx k row
    else idx) []

/-- The per-key action the classifier assigns. -/
inductive SyncAction where
  | createInSheets
  | createInNotion
  | updateSheets
  | updateNotion
  | conflict
  | noOp
deriving DecidableEq, Repr

/-- Column-by-column text comparison (src/sync/sync_engine.py:158-163):
`str(sheet_row.get(col.sheet, "")) == str(notion_row.get(col.sheet, ""))`
for every mapped column. -/
def valuesEqual (cfg : AppConfig) (sheet_row notion_row : Row) : Bool :=
  cfg.sync.columns.all (fun col =>
    pyStr (sheet_row.getD col.sheet (.str "")) == pyStr (notion_row.getD col.sheet (.str "")))

/-- Python `notion_last > m.notion_last_edited_time` on the strings involved
(only evaluated when both sides are truthy strings). -/
def pyStrGt : Option PyVal → Option String → Bool
  | Option.some (.str s), Option.some t => pyStrLt t s
  | _, _ => false

/-- The per-key body of `SyncEngine._diff` (src/sync/sync_engine.py:127-177),
as a function of the two row lookups and the baseline entry for one key. -/
def SyncEngine.classify_key (cfg : AppConfig)
    (sheet_row? notion_row? : Option Row) (m? : Option MetaRecord) : SyncAction :=
  match sheet_row?, notion_row? with
  | Option.none, Option.some _ => .createInSheets
  | Option.some _, Option.none => .createInNotion
  | Option.none, Option.none => .noOp
  | Option.some sheet_row, Option.some notion_row =>
    let current_hash := compute_row_hash cfg.sync.columns sheet_row
    let notion_last := notion_row.get? "__notion_last_edited__"
    let changed : Bool × Bool :=
      match m? with
      | Option.some m =>
        let changed_in_sheets := !((m.sheets_row_hash.getD "") == current_hash)
        let changed_in_notion :=
          if optTruthy notion_last && strOptTruthy m.notion_last_edited_time then
            pyStrGt notion_last m.notion_last_edited_time
          else if strOptTruthy m.notion_last_edited_time then
            false
          else
            true
        (changed_in_sheets, changed_in_notion)
      | Option.none => (true, true)
    let changed_in_sheets := changed.1
    let changed_in_notion := changed.2
    if valuesEqual cfg sheet_row notion_row then
      .noOp
    else if changed_in_sheets && !changed_in_notion then
      .updateNotion
    else if changed_in_notion && !changed_in_sheets then
      .updateSheets
    else if changed_in_notion && changed_in_sheets then
      .conflict
    else
      .updateSheets

/-- `DiffResult` (src/sync/sync_engine.py:16-22). -/
structure DiffResult where
  to_create_in_sheets : List String
  to_create_in_notion : List String
  to_update_sheets : List String
  to_update_notion : List String
  conflicts : List String
deriving DecidableEq, Repr

/-- Drop duplicate keys, keeping first occurrences (`set` construction). -/
def dedupKeys (seen : List String) : List String → List String
  | [] => []
  | x :: xs => if seen.contains x then dedupKeys seen xs else x :: dedupKeys (x :: seen) xs

/-- Insert a key into an ascending list of keys. -/
def insertSorted (k : String) : List String → List String
  | [] => [k]
  | x :: xs => if pyStrLe k x then k :: x :: xs else x :: insertSorted k xs

/-- Sort keys ascending by code-point order (Python `sorted`). -/
def sortStrings : List String → List String
  | [] => []
  | x :: xs => insertSorted x (sortStrings xs)

/-- `sorted(set(sheets) | set(notion))` over the index keys. -/
def sortedUnionKeys (sheets_by_key notion_by_key : Idx) : List String :=
  sortStrings (dedupKeys [] (sheets_by_key.map Prod.fst ++ notion_by_key.map Prod.fst))

/-- `SyncEngine._diff` (src/sync/sync_engine.py:119-185): classify every key of
the sorted union and collect each action's keys in order. -/
def SyncEngine._diff (cfg : AppConfig) (sheets_by_key notion_by_key : Idx)
    (meta : List (String × MetaRecord)) : DiffResult :=
  let keys := sortedUnionKeys sheets_by_key notion_by_key
  let act := fun k => SyncEngine.classify_key cfg
    (lookupKey sheets_by_key k) (lookupKey notion_by_key k) (lookupKey meta k)
  { to_create_in_sheets := keys.filter (fun k => act k == .createInSheets)
    to_create_in_notion := keys.filter (fun k => act k == .createInNotion)
    to_update_sheets := keys.filter (fun k => act k == .updateSheets)
    to_update_notion := keys.filter (fun k => act k == .updateNotion)
    conflicts := keys.filter (fun k => act k == .conflict) }

/-- A Notion property payload as built for a write
(src/sync/notion_wrapper.py:79-119).  The `number` payload keeps the numeral
string handed to `float(value)`; a `none` value models `{"number": None}`. -/
inductive NProp where
  | title (content : String)
  | rich_text (content : String)
  | number (value : Option String)
  | select (name : Option String)
  | multi_select (names : List String)
  | checkbox (value : Bool)
  | date (value : Option (String × Option String))
  | url (value : Option String)
  | email (value : Option String)
  | phone_number (value : Option String)
  | status (name : Option String)
deriving DecidableEq, Repr

/-- `NotionWrapper.build_property_value` (src/sync/notion_wrapper.py:79-119). -/
def NotionWrapper.build_property_value (typ : String) (value : Option String) : NProp :=
  if typ = "title" then
    .title (value.getD "")
  else if typ = "rich_text" then
    .rich_text (value.getD "")
  else if typ = "number" then
    .number (if value = Option.none ∨ value = Option.some "" then Option.none else value)
  else if typ = "select" then
    .select (if strOptTruthy value then value else Option.none)
  else if typ = "multi_select" then
    .multi_select ((pySplitComma (value.getD "")).map pyStrip |>.filter (fun p => !(p == "")))
  else if typ = "checkbox" then
    let lowered := match value with
      | Option.none => "false"
      | Option.some s => pyLower (pyStrip s)
    .checkbox (lowered == "true" || lowered == "1" || lowered == "yes" ||
               lowered == "y" || lowered == "t")
  else if typ = "date" then
    match value with
    | Option.none => .date Option.none
    | Option.some v =>
      if v = "" then .date Option.none
      else
        match pySplitDotDot v with
        | [] => .date (Option.some (pyStrip v, Option.none))
        | [_] => .date (Option.some (pyStrip v, Option.none))
        | s :: rest => .date (Option.some (pyStrip s, Option.some (pyStrip (String.intercalate ".." rest))))
  else if typ = "url" then
    .url (if strOptTruthy value then value else Option.none)
  else if typ = "email" then
    .email (if strOptTruthy value then value else Option.none)
  else if typ = "phone" then
    .phone_number (if strOptTruthy value then value else Option.none)
  else if typ = "status" then
    .status (if strOptTruthy value then value else Option.none)
  else
    .rich_text (value.getD "")

/-- The `checkbox` branch of `sheet_value_to_notion_property`
(src/sync/mapping.py:72-80), which takes an arbitrary scalar: native booleans
pass through, strings are trimmed/lowercased and compared against
`("true", "1", "yes", "y", "checked")`, numbers use `bool(value)`, anything
else is `False`. -/
def sheet_value_to_notion_property_checkbox (value : PyVal) : NProp :=
  match value with
  | .bool b => .checkbox b
  | .str s =>
    let lowered := pyLower (pyStrip s)
    .checkbox (lowered == "true" || lowered == "1" || lowered == "yes" ||
               lowered == "y" || lowered == "checked")
  | .int n => .checkbox (!(n == 0))
  | .none => .checkbox false

/-- The Notion property dictionary sent on a page write. -/
def Props : Type := List (String × NProp)

instance : DecidableEq Props := by
  unfold Props
  infer_instance

/-- `SyncEngine._build_notion_properties_from_sheet_row`
(src/sync/sync_engine.py:87-92). -/
def SyncEngine.build_notion_properties_from_sheet_row (cfg : AppConfig) (sheet_row : Row) : Props :=
  cfg.sync.columns.foldl (fun properties col =>
    let value : Option String :=
      match sheet_row.get? col.sheet with
      | Option.none => Option.none
      | Option.some .none => Option.none
      | Option.some v => Option.some (pyStr v)
    listSet properties col.notion (NotionWrapper.build_property_value col.type value)) []

/-- `_backoff_delay` (src/Task2.py:182-183):
`min(20.0, RETRY_BASE_DELAY * (2 ** attempt)) * (1 + 0.1 * random.random())`.
Python float arithmetic is modelled over `ℚ`; `r` is the value returned by
`random.random()`, which lies in `[0, 1)`. -/
def _backoff_delay (retry_base_delay : ℚ) (attempt : ℕ) (r : ℚ) : ℚ :=
  min 20 (retry_base_delay * 2 ^ attempt) * (1 + (1 / 10) * r)

/-- The run summary dictionary (src/sync/sync_engine.py:205-213). -/
structure Summary where
  created_in_sheets : ℕ
  created_in_notion : ℕ
  updated_sheets : ℕ
  updated_notion : ℕ
  conflicts : List String
  dry_run : Bool
  direction : String
deriving DecidableEq, Repr

/-- The page object a successful Notion create/update returns (the engine reads
`id` and `last_edited_time` from it). -/
structure NotionPage where
  id : Option String
  last_edited_time : Option String
deriving DecidableEq, Repr

/-- Oracles for the remote adapter calls the engine makes during apply.
A `.error e` result models the Python call raising with message `e` (after the
resilience wrapper's own retries); `.ok` models a completed remote write.
`now` is the value `_now_iso()` yields during the run. -/
structure Adapters where
  upsert_row : String → String → Row → Except String Unit
  upsert_meta : MetaRecord → Except String Unit
  create_page : Props → Except String NotionPage
  update_page : String → Props → Except String NotionPage
  now : String

/-- `SyncEngine._create_or_update_notion` (src/sync/sync_engine.py:187-192):
update when a truthy page id is at hand, create otherwise. -/
def SyncEngine.create_or_update_notion (ad : Adapters)
    (page_id : Option String) (properties : Props) : Except String NotionPage :=
  if strOptTruthy page_id then ad.update_page (page_id.getD "") properties
  else ad.create_page properties

/-- Log of the remote writes a run has performed, used to state frame
properties.  Notion writes are tagged with the engine key being processed. -/
structure World where
  row_writes : List (String × Row) := []
  meta_writes : List MetaRecord := []
  notion_writes : List (String × Option String × Props) := []
deriving DecidableEq

/-- The empty write log. -/
def World.empty : World := {}

/-- Whether the run wrote the data row for key `k`. -/
def World.hasRowWriteFor (w : World) (k : String) : Bool :=
  w.row_writes.any (fun e => e.1 == k)

/-- Whether the run created or updated the baseline (meta) entry for key `k`. -/
def World.hasMetaWriteFor (w : World) (k : String) : Bool :=
  w.meta_writes.any (fun m => m.key == k)

/-- Whether the run performed a Notion create/update while processing key `k`. -/
def World.hasNotionWriteFor (w : World) (k : String) : Bool :=
  w.notion_writes.any (fun e => e.1 == k)

/-- Whether the run performed any adapter write for key `k`. -/
def World.hasWriteFor (w : World) (k : String) : Bool :=
  w.hasRowWriteFor k || w.hasMetaWriteFor k || w.hasNotionWriteFor k

/-- Outcome of one apply phase: either the updated summary, or the error a
remote call raised; both carry the write log accumulated so far. -/
inductive PhaseRes where
  | ok (s : Summary) (w : World)
  | err (e : String) (w : World)
deriving DecidableEq

/-- Run the next phase unless a previous phase raised. -/
def PhaseRes.andThen (r : PhaseRes) (f : Summary → World → PhaseRes) : PhaseRes :=
  match r with
  | .ok s w => f s w
  | .err e w => .err e w

/-- The write log a phase outcome carries. -/
def PhaseRes.world : PhaseRes → World
  | .ok _ w => w
  | .err _ w => w

/-- `{c.sheet: notion_row.get(c.sheet, "") for c in self.cfg.sync.columns}`
(src/sync/sync_engine.py:222/268/316). -/
def SyncEngine.row_values_from_notion (cfg : AppConfig) (notion_row : Row) : Row :=
  cfg.sync.columns.foldl (fun r c => listSet r c.sheet (notion_row.getD c.sheet (.str ""))) []

/-- The baseline entry written after copying a Notion row into Sheets
(src/sync/sync_engine.py:228-236). -/
def SyncEngine.meta_from_notion_row (cfg : AppConfig) (ad : Adapters)
    (k : String) (notion_row row_values : Row) : MetaRecord :=
  { key := k
    notion_page_id := pyOptStr (notion_row.get? "__notion_page_id__")
    notion_last_edited_time := pyOptStr (notion_row.get? "__notion_last_edited__")
    sheets_row_hash := Option.some (compute_row_hash cfg.sync.columns row_values)
    last_synced_at := Option.some ad.now }

/-- The create-in-Sheets loop (src/sync/sync_engine.py:216-237). -/
def SyncEngine.creates_in_sheets_loop (cfg : AppConfig) (ad : Adapters)
    (notion_by_key : Idx) (dry_run : Bool) :
    List String → Summary → World → PhaseRes
  | [], s, w => .ok s w
  | k :: ks, s, w =>
    let notion_row := (lookupKey notion_by_key k).getD []
    if dry_run then
      SyncEngine.creates_in_sheets_loop cfg ad notion_by_key dry_run ks
        { s with created_in_sheets := s.created_in_sheets + 1 } w
    else
      let row_values := SyncEngine.row_values_from_notion cfg notion_row
      match ad.upsert_row cfg.sync.key k row_values with
      | .error e => .err e w
      | .ok _ =>
        let w := { w with row_writes := w.row_writes ++ [(k, row_values)] }
        let m := SyncEngine.meta_from_notion_row cfg ad k notion_row row_values
        match ad.upsert_meta m with
        | .error e => .err e w
        | .ok _ =>
          SyncEngine.creates_in_sheets_loop cfg ad notion_by_key dry_run ks
            { s with created_in_sheets := s.created_in_sheets + 1 }
            { w with meta_writes := w.meta_writes ++ [m] }

/-- The create-in-Notion loop (src/sync/sync_engine.py:239-259). -/
def SyncEngine.creates_in_notion_loop (cfg : AppConfig) (ad : Adapters)
    (sheets_by_key : Idx) (dry_run : Bool) :
    List String → Summary → World → PhaseRes
  | [], s, w => .ok s w
  | k :: ks, s, w =>
    let sheet_row := (lookupKey sheets_by_key k).getD []
    if dry_run then
      SyncEngine.creates_in_notion_loop cfg ad sheets_by_key dry_run ks
        { s with created_in_notion := s.created_in_notion + 1 } w
    else
      let properties := SyncEngine.build_notion_properties_from_sheet_row cfg sheet_row
      match SyncEngine.create_or_update_notion ad Option.none properties with
      | .error e => .err e w
      | .ok page =>
        let w := { w with notion_writes := w.notion_writes ++ [(k, Option.none, properties)] }
        let m : MetaRecord :=
          { key := k
            notion_page_id := page.id
            notion_last_edited_time := page.last_edited_time
            sheets_row_hash := Option.some (compute_row_hash cfg.sync.columns sheet_row)
            last_synced_at := Option.some ad.now }
        match ad.upsert_meta m with
        | .error e => .err e w
        | .ok _ =>
          SyncEngine.creates_in_notion_loop cfg ad sheets_by_key dry_run ks
            { s with created_in_notion := s.created_in_notion + 1 }
            { w with meta_writes := w.meta_writes ++ [m] }

/-- The update-Sheets loop (src/sync/sync_engine.py:262-282); identical body to
the create-in-Sheets loop except for the counter it bumps. -/
def SyncEngine.updates_sheets_loop (cfg : AppConfig) (ad : Adapters)
    (notion_by_key : Idx) (dry_run : Bool) :
    List String → Summary → World → PhaseRes
  | [], s, w => .ok s w
  | k :: ks, s, w =>
    let notion_row := (lookupKey notion_by_key k).getD []
    if dry_run then
      SyncEngine.updates_sheets_loop cfg ad notion_by_key dry_run ks
        { s with updated_sheets := s.updated_sheets + 1 } w
    else
      let row_values := SyncEngine.row_values_from_notion cfg notion_row
      match ad.upsert_row cfg.sync.key k row_values with
      | .error e => .err e w
      | .ok _ =>
        let w := { w with row_writes := w.row_writes ++ [(k, row_values)] }
        let m := SyncEngine.meta_from_notion_row cfg ad k notion_row row_values
        match ad.upsert_meta m with
        | .error e => .err e w
        | .ok _ =>
          SyncEngine.updates_sheets_loop cfg ad notion_by_key dry_run ks
            { s with updated_sheets := s.updated_sheets + 1 }
            { w with meta_writes := w.meta_writes ++ [m] }

/-- `(meta_map.get(k).notion_page_id if k in meta_map else None) or
notion_by_key.get(k, {}).get("__notion_page_id__")`
(src/sync/sync_engine.py:287/337). -/
def SyncEngine.page_id_for_update (meta_map : List (String × MetaRecord))
    (notion_by_key : Idx) (k : String) : Option String :=
  let from_meta : Option String :=
    match lookupKey meta_map k with
    | Option.some m => m.notion_page_id
    | Option.none => Option.none
  let from_row : Option String :=
    pyOptStr (((lookupKey notion_by_key k).getD []).get? "__notion_page_id__")
  match from_meta with
  | Option.some s => if s = "" then from_row else Option.some s
  | Option.none => from_row

/-- The update-Notion loop (src/sync/sync_engine.py:284-305). -/
def SyncEngine.updates_notion_loop (cfg : AppConfig) (ad : Adapters)
    (sheets_by_key notion_by_key : Idx) (meta_map : List (String × MetaRecord))
    (dry_run : Bool) :
    List String → Summary → World → PhaseRes
  | [], s, w => .ok s w
  | k :: ks, s, w =>
    let sheet_row := (lookupKey sheets_by_key k).getD []
    let page_id := SyncEngine.page_id_for_update meta_map notion_by_key k
    if dry_run then
      SyncEngine.updates_notion_loop cfg ad sheets_by_key notion_by_key meta_map dry_run ks
        { s with updated_notion := s.updated_notion + 1 } w
    else
      let properties := SyncEngine.build_notion_properties_from_sheet_row cfg sheet_row
      match SyncEngine.create_or_update_notion ad page_id properties with
      | .error e => .err e w
      | .ok page =>
        let w := { w with notion_writes := w.notion_writes ++ [(k, page_id, properties)] }
        let m : MetaRecord :=
          { key := k
            notion_page_id := page.id
            notion_last_edited_time := page.last_edited_time
            sheets_row_hash := Option.some (compute_row_hash cfg.sync.columns sheet_row)
            last_synced_at := Option.some ad.now }
        match ad.upsert_meta m with
        | .error e => .err e w
        | .ok _ =>
          SyncEngine.updates_notion_loop cfg ad sheets_by_key notion_by_key meta_map dry_run ks
            { s with updated_notion := s.updated_notion + 1 }
            { w with meta_writes := w.meta_writes ++ [m] }

/-- The conflict-resolution loop (src/sync/sync_engine.py:308-354). -/
def SyncEngine.conflicts_loop (cfg : AppConfig) (ad : Adapters)
    (sheets_by_key notion_by_key : Idx) (meta_map : List (String × MetaRecord))
    (direction : String) (dry_run : Bool) :
    List String → Summary → World → PhaseRes
  | [], s, w => .ok s w
  | k :: ks, s, w =>
    if cfg.sync.conflict_strategy = "fail" then
      SyncEngine.conflicts_loop cfg ad sheets_by_key notion_by_key meta_map direction dry_run ks
        { s with conflicts := s.conflicts ++ [k] } w
    else if cfg.sync.conflict_strategy = "notion_wins" then
      if direction = "both" ∨ direction = "to-sheets" then
        if dry_run then
          SyncEngine.conflicts_loop cfg ad sheets_by_key notion_by_key meta_map direction dry_run ks
            { s with updated_sheets := s.updated_sheets + 1 } w
        else
          let notion_row := (lookupKey notion_by_key k).getD []
          let row_values := SyncEngine.row_values_from_notion cfg notion_row
          match ad.upsert_row cfg.sync.key k row_values with
          | .error e => .err e w
          | .ok _ =>
            let w := { w with row_writes := w.row_writes ++ [(k, row_values)] }
            let m := SyncEngine.meta_from_notion_row cfg ad k notion_row row_values
            match ad.upsert_meta m with
            | .error e => .err e w
            | .ok _ =>
              SyncEngine.conflicts_loop cfg ad sheets_by_key notion_by_key meta_map direction dry_run ks
                { s with updated_sheets := s.updated_sheets + 1 }
                { w with meta_writes := w.meta_writes ++ [m] }
      else
        SyncEngine.conflicts_loop cfg ad sheets_by_key notion_by_key meta_map direction dry_run ks
          { s with conflicts := s.conflicts ++ [k] } w
    else if cfg.sync.conflict_strategy = "sheets_wins" then
      if direction = "both" ∨ direction = "to-notion" then
        let sheet_row := (lookupKey sheets_by_key k).getD []
        if dry_run then
          SyncEngine.conflicts_loop cfg ad sheets_by_key notion_by_key meta_map direction dry_run ks
            { s with updated_notion := s.updated_notion + 1 } w
        else
          let page_id := SyncEngine.page_id_for_update meta_map notion_by_key k
          let properties := SyncEngine.build_notion_properties_from_sheet_row cfg sheet_row
          match SyncEngine.create_or_update_notion ad page_id properties with
          | .error e => .err e w
          | .ok page =>
            let w := { w with notion_writes := w.notion_writes ++ [(k, page_id, properties)] }
            let m : MetaRecord :=
              { key := k
                notion_page_id := page.id
                notion_last_edited_time := page.last_edited_time
                sheets_row_hash := Option.some (compute_row_hash cfg.sync.columns sheet_row)
                last_synced_at := Option.some ad.now }
            match ad.upsert_meta m with
            | .error e => .err e w
            | .ok _ =>
              SyncEngine.conflicts_loop cfg ad sheets_by_key notion_by_key meta_map direction dry_run ks
                { s with updated_notion := s.updated_notion + 1 }
                { w with meta_writes := w.meta_writes ++ [m] }
      else
        SyncEngine.conflicts_loop cfg ad sheets_by_key notion_by_key meta_map direction dry_run ks
          { s with conflicts := s.conflicts ++ [k] } w
    else
      SyncEngine.conflicts_loop cfg ad sheets_by_key notion_by_key meta_map direction dry_run ks s w

/-- The create/update phases of `SyncEngine.run`
(src/sync/sync_engine.py:215-305), in the source's fixed order:
creates-in-Sheets, creates-in-Notion, updates-to-Sheets, updates-to-Notion,
each guarded by the requested direction. -/
def SyncEngine.apply_creates_updates (cfg : AppConfig) (ad : Adapters)
    (sheets_by_key notion_by_key : Idx) (meta_map : List (String × MetaRecord))
    (d : DiffResult) (direction : String) (dry_run : Bool) (summary0 : Summary) : PhaseRes :=
  let r1 :=
    if direction = "both" ∨ direction = "to-sheets" then
      SyncEngine.creates_in_sheets_loop cfg ad notion_by_key dry_run d.to_create_in_sheets summary0 {}
    else .ok summary0 {}
  let r2 := r1.andThen fun s w =>
    if direction = "both" ∨ direction = "to-notion" then
      SyncEngine.creates_in_notion_loop cfg ad sheets_by_key dry_run d.to_create_in_notion s w
    else .ok s w
  let r3 := r2.andThen fun s w =>
    if direction = "both" ∨ direction = "to-sheets" then
      SyncEngine.updates_sheets_loop cfg ad notion_by_key dry_run d.to_update_sheets s w
    else .ok s w
  r3.andThen fun s w =>
    if direction = "both" ∨ direction = "to-notion" then
      SyncEngine.updates_notion_loop cfg ad sheets_by_key notion_by_key meta_map dry_run d.to_update_notion s w
    else .ok s w

/-- All apply phases of `SyncEngine.run` (src/sync/sync_engine.py:215-354):
the create/update phases followed by the conflict-resolution loop. -/
def SyncEngine.apply_all (cfg : AppConfig) (ad : Adapters)
    (sheets_by_key notion_by_key : Idx) (meta_map : List (String × MetaRecord))
    (d : DiffResult) (direction : String) (dry_run : Bool) (summary0 : Summary) : PhaseRes :=
  (SyncEngine.apply_creates_updates cfg ad sheets_by_key notion_by_key meta_map d
      direction dry_run summary0).andThen fun s w =>
    SyncEngine.conflicts_loop cfg ad sheets_by_key notion_by_key meta_map direction dry_run
      d.conflicts s w

/-- `SyncEngine.run` (src/sync/sync_engine.py:194-370), from the loaded state
(`load_state`'s sheet rows, meta map and Notion pages) to the run summary or
the first uncaught adapter error, together with the log of performed writes.
The mirror-deletes section (lines 356-368) deliberately performs no remote
action in the source and is therefore omitted. -/
def SyncEngine.run (cfg : AppConfig) (ad : Adapters)
    (sheet_rows : List Row) (meta_map : List (String × MetaRecord)) (pages : List Page)
    (direction : String) (dry_run : Bool) : Except String Summary × World :=
  if ¬(direction = "both" ∨ direction = "to-sheets" ∨ direction = "to-notion") then
    (.error "direction must be one of: both, to-sheets, to-notion", {})
  else
    let sheets_by_key := SyncEngine.build_index_by_key cfg sheet_rows
    let notion_by_key := SyncEngine.build_notion_index cfg pages
    let d := SyncEngine._diff cfg sheets_by_key notion_by_key meta_map
    let summary0 : Summary :=
      { created_in_sheets := 0, created_in_notion := 0, updated_sheets := 0,
        updated_notion := 0, conflicts := [], dry_run := dry_run, direction := direction }
    match SyncEngine.apply_all cfg ad sheets_by_key notion_by_key meta_map d direction dry_run summary0 with
    | .ok s w => (.ok s, w)
    | .err e w => (.error e, w)

instance {ε α : Type} [DecidableEq ε] [DecidableEq α] : DecidableEq (Except ε α) := fun x y =>
  match x, y with
  | .ok a, .ok b =>
    if h : a = b then Decidable.isTrue (by rw [h]) else
      Decidable.isFalse (fun hc => h (by cases hc; rfl))
  | .error a, .error b =>
    if h : a = b then Decidable.isTrue (by rw [h]) else
      Decidable.isFalse (fun hc => h (by cases hc; rfl))
  | .ok _, .error _ => Decidable.isFalse (fun hc => Except.noConfusion hc)
  | .error _, .ok _ => Decidable.isFalse (fun hc => Except.noConfusion hc)

theorem lookupKey_mem_keys {α : Type} {l : List (String × α)} {k : String} {v : α}
    (h : lookupKey l k = Option.some v) : k ∈ l.map Prod.fst := by
  induction l with
  | nil => simp [lookupKey] at h
  | cons p ps ih =>
    by_cases hp : p.1 = k
    · simp [hp]
    · simp [lookupKey, hp] at h
      simp [ih h]

theorem mem_keys_lookup_isSome {α : Type} {l : List (String × α)} {k : String}
    (h : k ∈ l.map Prod.fst) : (lookupKey l k).isSome := by
  induction l with
  | nil => simp at h
  | cons p ps ih =>
    by_cases hp : p.1 = k
    · simp [lookupKey, hp]
    · simp [hp] at h
      rcases h with h | h
      · exact absurd h.symm hp
      · simpa [lookupKey, hp] using ih (by simpa using h)

theorem mem_dedupKeys {l : List String} {seen : List String} {k : String} :
    k ∈ dedupKeys seen l ↔ k ∈ l ∧ k ∉ seen := by
  induction l generalizing seen with
  | nil => simp [dedupKeys]
  | cons x xs ih =>
    by_cases hx : seen.contains x
    · simp only [dedupKeys, if_pos hx, ih]
      constructor
      · rintro ⟨h1, h2⟩
        exact ⟨List.mem_cons_of_mem _ h1, h2⟩
      · rintro ⟨h1, h2⟩
        rcases List.mem_cons.mp h1 with rfl | h1
        · exact absurd (by simpa using hx) h2
        · exact ⟨h1, h2⟩
    · have hxseen : x ∉ seen := by simpa using hx
      simp only [dedupKeys, if_neg hx, List.mem_cons, ih, List.mem_cons]
      constructor
      · rintro (rfl | ⟨h1, h2⟩)
        · exact ⟨Or.inl rfl, hxseen⟩
        · push_neg at h2
          exact ⟨Or.inr h1, h2.2⟩
      · rintro ⟨rfl | h1, h2⟩
        · exact Or.inl rfl
        · by_cases hkx : k = x
          · exact Or.inl hkx
          · refine Or.inr ⟨h1, ?_⟩
            push_neg
            exact ⟨hkx, h2⟩

theorem mem_insertSorted {l : List String} {k a : String} :
    a ∈ insertSorted k l ↔ a = k ∨ a ∈ l := by
  induction l with
  | nil => simp [insertSorted]
  | cons x xs ih =>
    by_cases h : pyStrLe k x
    · simp [insertSorted, h]
    · simp only [insertSorted, if_neg h, List.mem_cons, ih]
      tauto

theorem mem_sortStrings {l : List String} {a : String} :
    a ∈ sortStrings l ↔ a ∈ l := by
  induction l with
  | nil => simp [sortStrings]
  | cons x xs ih =>
    simp only [sortStrings, mem_insertSorted, List.mem_cons, ih]

theorem mem_sortedUnionKeys {S N : Idx} {k : String} :
    k ∈ sortedUnionKeys S N ↔ k ∈ S.map Prod.fst ∨ k ∈ N.map Prod.fst := by
  simp [sortedUnionKeys, mem_sortStrings, mem_dedupKeys]

theorem mem_filter_act {keys : List String} {f : String → SyncAction} {a : SyncAction} {k : String} :
    k ∈ keys.filter (fun x => f x == a) ↔ k ∈ keys ∧ f k = a := by
  simp [List.mem_filter]

theorem diff_conflicts_mem {cfg : AppConfig} {S N : Idx} {meta : List (String × MetaRecord)}
    {k : String} :
    k ∈ (SyncEngine._diff cfg S N meta).conflicts ↔
      k ∈ sortedUnionKeys S N ∧
        SyncEngine.classify_key cfg (lookupKey S k) (lookupKey N k) (lookupKey meta k) =
          .conflict := by
  simp [SyncEngine._diff, mem_filter_act]

theorem diff_to_update_sheets_mem {cfg : AppConfig} {S N : Idx} {meta : List (String × MetaRecord)}
    {k : String} :
    k ∈ (SyncEngine._diff cfg S N meta).to_update_sheets ↔
      k ∈ sortedUnionKeys S N ∧
        SyncEngine.classify_key cfg (lookupKey S k) (lookupKey N k) (lookupKey meta k) =
          .updateSheets := by
  simp [SyncEngine._diff, mem_filter_act]

theorem diff_to_update_notion_mem {cfg : AppConfig} {S N : Idx} {meta : List (String × MetaRecord)}
    {k : String} :
    k ∈ (SyncEngine._diff cfg S N meta).to_update_notion ↔
      k ∈ sortedUnionKeys S N ∧
        SyncEngine.classify_key cfg (lookupKey S k) (lookupKey N k) (lookupKey meta k) =
          .updateNotion := by
  simp [SyncEngine._diff, mem_filter_act]

theorem diff_to_create_in_sheets_mem {cfg : AppConfig} {S N : Idx}
    {meta : List (String × MetaRecord)} {k : String} :
    k ∈ (SyncEngine._diff cfg S N meta).to_create_in_sheets ↔
      k ∈ sortedUnionKeys S N ∧
        SyncEngine.classify_key cfg (lookupKey S k) (lookupKey N k) (lookupKey meta k) =
          .createInSheets := by
  simp [SyncEngine._diff, mem_filter_act]

theorem diff_to_create_in_notion_mem {cfg : AppConfig} {S N : Idx}
    {meta : List (String × MetaRecord)} {k : String} :
    k ∈ (SyncEngine._diff cfg S N meta).to_create_in_notion ↔
      k ∈ sortedUnionKeys S N ∧
        SyncEngine.classify_key cfg (lookupKey S k) (lookupKey N k) (lookupKey meta k) =
          .createInNotion := by
  simp [SyncEngine._diff, mem_filter_act]

/-- C2: a key present in both indices whose values differ column-by-column and
that has no baseline entry is classified `conflict`, and is in particular not
silently routed to either update action. -/
theorem C2_no_baseline_is_conflict (cfg : AppConfig) (S N : Idx)
    (meta : List (String × MetaRecord)) (k : String) (rs rn : Row)
    (hs : lookupKey S k = Option.some rs)
    (hn : lookupKey N k = Option.some rn)
    (hm : lookupKey meta k = Option.none)
    (hvals : valuesEqual cfg rs rn = false) :
    k ∈ (SyncEngine._diff cfg S N meta).conflicts ∧
      k ∉ (SyncEngine._diff cfg S N meta).to_update_sheets ∧
      k ∉ (SyncEngine._diff cfg S N meta).to_update_notion := by
  have hkmem : k ∈ sortedUnionKeys S N :=
    mem_sortedUnionKeys.mpr (Or.inl (lookupKey_mem_keys hs))
  have hclass : SyncEngine.classify_key cfg (lookupKey S k) (lookupKey N k) (lookupKey meta k) =
      .conflict := by
    rw [hs, hn, hm]
    simp [SyncEngine.classify_key, hvals]
  refine ⟨diff_conflicts_mem.mpr ⟨hkmem, hclass⟩, ?_, ?_⟩
  · intro hc
    have h2 := (diff_to_update_sheets_mem.mp hc).2
    rw [hclass] at h2
    exact SyncAction.noConfusion h2
  · intro hc
    have h2 := (diff_to_update_notion_mem.mp hc).2
    rw [hclass] at h2
    exact SyncAction.noConfusion h2

/-- C3: with a baseline entry whose stored hash matches the current sheet hash
and whose stored revision marker has not been passed by the Notion row's
marker, a key with differing values falls back to `updateSheets`
(update the Sheets side from the Notion side), not `conflict`. -/
theorem C3_drift_fallback (cfg : AppConfig) (S N : Idx)
    (meta : List (String × MetaRecord)) (k : String) (rs rn : Row) (m : MetaRecord)
    (hs : lookupKey S k = Option.some rs)
    (hn : lookupKey N k = Option.some rn)
    (hm : lookupKey meta k = Option.some m)
    (hhash : m.sheets_row_hash.getD "" = compute_row_hash cfg.sync.columns rs)
    (hml : strOptTruthy m.notion_last_edited_time = true)
    (hnl : optTruthy (rn.get? "__notion_last_edited__") = false ∨
           pyStrGt (rn.get? "__notion_last_edited__") m.notion_last_edited_time = false)
    (hvals : valuesEqual cfg rs rn = false) :
    k ∈ (SyncEngine._diff cfg S N meta).to_update_sheets ∧
      k ∉ (SyncEngine._diff cfg S N meta).conflicts := by
  have hkmem : k ∈ sortedUnionKeys S N :=
    mem_sortedUnionKeys.mpr (Or.inl (lookupKey_mem_keys hs))
  have hclass : SyncEngine.classify_key cfg (lookupKey S k) (lookupKey N k) (lookupKey meta k) =
      .updateSheets := by
    rw [hs, hn, hm]
    rcases hnl with hnl | hnl
    · simp [SyncEngine.classify_key, hvals, hhash, hml, hnl]
    · by_cases hopt : optTruthy (rn.get? "__notion_last_edited__") = true
      · simp [SyncEngine.classify_key, hvals, hhash, hml, hopt, hnl]
      · simp at hopt
        simp [SyncEngine.classify_key, hvals, hhash, hml, hopt]
  refine ⟨diff_to_update_sheets_mem.mpr ⟨hkmem, hclass⟩, ?_⟩
  intro hc
  have h2 := (diff_conflicts_mem.mp hc).2
  rw [hclass] at h2
  exact SyncAction.noConfusion h2

/-- C8: the row hash depends only on the normalized values of the mapped sheet
columns — any two row dictionaries that agree on those (whatever their entry
order and whatever extra entries, such as the page id or revision marker, they
carry) produce the same digest; determinism is immediate since
`compute_row_hash` is a function. -/
theorem C8_hash_purity (columns : List ColumnMapping) (r1 r2 : Row)
    (h : ∀ c ∈ columns,
      _normalize_value_for_hash ((r1.get? c.sheet).getD .none) =
        _normalize_value_for_hash ((r2.get? c.sheet).getD .none)) :
    compute_row_hash columns r1 = compute_row_hash columns r2 := by
  simp only [compute_row_hash]
  have hmap : columns.map (fun col =>
        col.sheet ++ "=" ++ _normalize_value_for_hash ((r1.get? col.sheet).getD .none)) =
      columns.map (fun col =>
        col.sheet ++ "=" ++ _normalize_value_for_hash ((r2.get? col.sheet).getD .none)) :=
    List.map_congr_left (fun c hc => by rw [h c hc])
  rw [hmap]

def colsW : List ColumnMapping :=
  [{ sheet := "A", notion := "A", type := "rich_text" },
   { sheet := "B", notion := "B", type := "rich_text" }]

/-- C8 witness: two rows supplied in different orders, one carrying the extra
`__notion_page_id__` entry, hash identically. -/
theorem C8_hash_purity_witness :
    (∀ c ∈ colsW,
      _normalize_value_for_hash ((Row.get? [("B", .str " x "), ("A", .str "1")] c.sheet).getD .none) =
        _normalize_value_for_hash
          ((Row.get? [("A", .str "1 "), ("B", .str "x"), ("__notion_page_id__", .str "p")] c.sheet).getD .none)) ∧
    compute_row_hash colsW [("B", .str " x "), ("A", .str "1")] =
      compute_row_hash colsW [("A", .str "1 "), ("B", .str "x"), ("__notion_page_id__", .str "p")] :=
  ⟨by decide, C8_hash_purity colsW _ _ (by decide)⟩

/-- C9 counterexample: at base delay `d = 1` and attempt `k = 6` the cap
binds, and with zero jitter the computed delay is `20`, strictly below the
claimed lower bound `d * 2^k = 64`. -/
theorem C9_counterexample :
    (0 : ℚ) ≤ 0 ∧ (0 : ℚ) < 1 ∧ _backoff_delay 1 6 0 < 1 * 2 ^ 6 := by
  norm_num [_backoff_delay]

/-- C9 (amended): the computed delay lies in
`[min(c, d*2^k), min(c, d*2^k) * 1.1]` where `c = 20` is the hard-coded cap —
the cap is applied before the jitter factor, so the uncapped exponential
`d * 2^k` is a lower bound only while it stays at or below the cap. -/
theorem C9_backoff_bounds (d : ℚ) (k : ℕ) (r : ℚ)
    (hd : 0 ≤ d) (hr0 : 0 ≤ r) (hr1 : r < 1) :
    min 20 (d * 2 ^ k) ≤ _backoff_delay d k r ∧
      _backoff_delay d k r ≤ min 20 (d * 2 ^ k) * (11 / 10) := by
  unfold _backoff_delay
  have hm : (0 : ℚ) ≤ min 20 (d * 2 ^ k) := by
    have h2 : (0 : ℚ) ≤ d * 2 ^ k := mul_nonneg hd (by positivity)
    exact le_min (by norm_num) h2
  constructor
  · nlinarith [mul_nonneg hm hr0]
  · nlinarith [mul_nonneg hm hr0, mul_le_mul_of_nonneg_left (le_of_lt hr1) hm]

/-- C9 witness: base delay `1`, attempt `2`, jitter `1/2`. -/
theorem C9_backoff_bounds_witness :
    (0 : ℚ) ≤ 1 ∧ (0 : ℚ) ≤ 1 / 2 ∧ (1 : ℚ) / 2 < 1 ∧
      (min 20 ((1 : ℚ) * 2 ^ 2) ≤ _backoff_delay 1 2 (1 / 2) ∧
        _backoff_delay 1 2 (1 / 2) ≤ min 20 ((1 : ℚ) * 2 ^ 2) * (11 / 10)) :=
  ⟨by norm_num, by norm_num, by norm_num,
    C9_backoff_bounds 1 2 (1 / 2) (by norm_num) (by norm_num) (by norm_num)⟩

/-- C10 counterexample: the Sheets-to-Notion codec in src/sync/mapping.py sends
the trimmed lowercase string `"t"` to `False` (the claim says every codec sends
it to `True`) and sends `"checked"` to `True` (the claim says every string
outside the five listed ones maps to `False`); the codec in
src/sync/notion_wrapper.py does follow the claimed set. -/
theorem C10_counterexample :
    sheet_value_to_notion_property_checkbox (.str "t") = NProp.checkbox false ∧
      sheet_value_to_notion_property_checkbox (.str "checked") = NProp.checkbox true ∧
      NotionWrapper.build_property_value "checkbox" (Option.some "t") = NProp.checkbox true := by
  decide

/-- C10 (amended): `NotionWrapper.build_property_value` maps exactly the
case-insensitive trimmed strings true/1/yes/y/t to a true checkbox, while
`sheet_value_to_notion_property` maps exactly true/1/yes/y/checked; the two
codecs agree on a string input precisely when its trimmed lowercase form is
neither `"t"` nor `"checked"`. -/
theorem C10_checkbox_codecs (s : String) :
    NotionWrapper.build_property_value "checkbox" (Option.some s) =
      NProp.checkbox (pyLower (pyStrip s) == "true" || pyLower (pyStrip s) == "1" ||
        pyLower (pyStrip s) == "yes" || pyLower (pyStrip s) == "y" ||
        pyLower (pyStrip s) == "t") ∧
    sheet_value_to_notion_property_checkbox (.str s) =
      NProp.checkbox (pyLower (pyStrip s) == "true" || pyLower (pyStrip s) == "1" ||
        pyLower (pyStrip s) == "yes" || pyLower (pyStrip s) == "y" ||
        pyLower (pyStrip s) == "checked") ∧
    (NotionWrapper.build_property_value "checkbox" (Option.some s) =
        sheet_value_to_notion_property_checkbox (.str s) ↔
      ¬(pyLower (pyStrip s) = "t" ∨ pyLower (pyStrip s) = "checked")) := by
  have h1 : NotionWrapper.build_property_value "checkbox" (Option.some s) =
      NProp.checkbox (pyLower (pyStrip s) == "true" || pyLower (pyStrip s) == "1" ||
        pyLower (pyStrip s) == "yes" || pyLower (pyStrip s) == "y" ||
        pyLower (pyStrip s) == "t") := rfl
  have h2 : sheet_value_to_notion_property_checkbox (.str s) =
      NProp.checkbox (pyLower (pyStrip s) == "true" || pyLower (pyStrip s) == "1" ||
        pyLower (pyStrip s) == "yes" || pyLower (pyStrip s) == "y" ||
        pyLower (pyStrip s) == "checked") := rfl
  refine ⟨h1, h2, ?_⟩
  rw [h1, h2, NProp.checkbox.injEq]
  generalize pyLower (pyStrip s) = l
  by_cases ht : l = "t"
  · subst ht
    decide
  · by_cases hc : l = "checked"
    · subst hc
      decide
    · have ht' : (l == "t") = false := by
        simp [ht]
      have hc' : (l == "checked") = false := by
        simp [hc]
      simp [ht', hc', ht, hc]

def cfgW : AppConfig :=
  { sync :=
    { key := "K"
      conflict_strategy := "fail"
      mirror_deletes := false
      columns := [{ sheet := "K", notion := "K", type := "rich_text" },
                  { sheet := "V", notion := "V", type := "rich_text" }] } }

def rowSW : Row := [("K", .str "a"), ("V", .str "1")]

def rowNW : Row := [("K", .str "a"), ("V", .str "2")]

/-- C2 witness: a shared key with differing values and no baseline entry is
concretely classified as a conflict. -/
theorem C2_no_baseline_is_conflict_witness :
    valuesEqual cfgW rowSW rowNW = false ∧
      ("a" ∈ (SyncEngine._diff cfgW [("a", rowSW)] [("a", rowNW)] []).conflicts ∧
        "a" ∉ (SyncEngine._diff cfgW [("a", rowSW)] [("a", rowNW)] []).to_update_sheets ∧
        "a" ∉ (SyncEngine._diff cfgW [("a", rowSW)] [("a", rowNW)] []).to_update_notion) :=
  ⟨by decide,
    C2_no_baseline_is_conflict cfgW [("a", rowSW)] [("a", rowNW)] [] "a" rowSW rowNW
      (by decide) (by decide) (by decide) (by decide)⟩

def rowNW3 : Row := [("K", .str "a"), ("V", .str "2"), ("__notion_last_edited__", .str "T1")]

def metaW3 : MetaRecord :=
  { key := "a"
    notion_page_id := Option.some "p1"
    notion_last_edited_time := Option.some "T1"
    sheets_row_hash := Option.some (compute_row_hash cfgW.sync.columns rowSW)
    last_synced_at := Option.some "t0" }

/-- C3 witness: unchanged hash, non-advanced revision marker and differing
values concretely land in `to_update_sheets` and not in `conflicts`. -/
theorem C3_drift_fallback_witness :
    valuesEqual cfgW rowSW rowNW3 = false ∧
      metaW3.sheets_row_hash.getD "" = compute_row_hash cfgW.sync.columns rowSW ∧
      ("a" ∈ (SyncEngine._diff cfgW [("a", rowSW)] [("a", rowNW3)] [("a", metaW3)]).to_update_sheets ∧
        "a" ∉ (SyncEngine._diff cfgW [("a", rowSW)] [("a", rowNW3)] [("a", metaW3)]).conflicts) :=
  ⟨by decide, by decide,
    C3_drift_fallback cfgW [("a", rowSW)] [("a", rowNW3)] [("a", metaW3)] "a" rowSW rowNW3 metaW3
      (by decide) (by decide) (by decide) (by decide) (by decide) (Or.inr (by decide)) (by decide)⟩

def rowBW : Row := [("K", .str "b"), ("V", .str "2")]

def rowCW : Row := [("K", .str "c"), ("V", .str "3")]

/-- Adapter oracle that answers every call successfully except the Notion
create for the row whose `K` property carries `"b"`, which raises `"boom"`. -/
def adFailW : Adapters :=
  { upsert_row := fun _ _ _ => .ok ()
    upsert_meta := fun _ => .ok ()
    create_page := fun props =>
      if lookupKey props "K" = Option.some (NProp.rich_text "b") then .error "boom"
      else .ok { id := Option.some "pid", last_edited_time := Option.some "T" }
    update_page := fun _ _ => .ok { id := Option.some "pid", last_edited_time := Option.some "T" }
    now := "NOW" }

/-- C1 counterexample: three keys `a`, `b`, `c` need creation in Notion and the
adapter call for `b` raises; the run then returns the raised error instead of a
summary (so no error is recorded in any summary), and the remaining key `c` is
never processed — the engine has no per-record failure isolation. -/
theorem C1_counterexample :
    (SyncEngine.run cfgW adFailW [rowSW, rowBW, rowCW] [] [] "both" false).1 =
      Except.error "boom" ∧
    (SyncEngine.run cfgW adFailW [rowSW, rowBW, rowCW] [] [] "both" false).2.hasWriteFor "c" =
      false := by
  decide

/-- C1 (amended): on an adapter failure for one key the run aborts with that
error and returns no summary; writes and baseline updates already performed
for earlier keys persist, the failing key's write is abandoned with its
baseline untouched, and later keys are not processed.  Concretely, with keys
`a`, `b`, `c` to create in Notion and the call for `b` raising, the write log
stops after `a`'s page create and baseline update. -/
theorem C1_run_aborts_on_failure :
    SyncEngine.run cfgW adFailW [rowSW, rowBW, rowCW] [] [] "both" false =
      (Except.error "boom",
        { row_writes := []
          meta_writes := [{ key := "a"
                            notion_page_id := Option.some "pid"
                            notion_last_edited_time := Option.some "T"
                            sheets_row_hash := Option.some "sha256:K=a|V=1"
                            last_synced_at := Option.some "NOW" }]
          notion_writes := [("a", Option.none,
            [("K", NProp.rich_text "a"), ("V", NProp.rich_text "1")])] }) := by
  decide
def exceptOkB {ε α : Type} : Except ε α → Bool
  | .ok _ => true
  | .error _ => false

/-- An adapter oracle whose calls all succeed (no remote failures this run). -/
def Adapters.allOk (ad : Adapters) : Prop :=
  (∀ kc k r, exceptOkB (ad.upsert_row kc k r) = true) ∧
  (∀ m, exceptOkB (ad.upsert_meta m) = true) ∧
  (∀ p, exceptOkB (ad.create_page p) = true) ∧
  (∀ pid p, exceptOkB (ad.update_page pid p) = true)

theorem create_or_update_notion_allOk {ad : Adapters} (hok : ad.allOk)
    (pid : Option String) (props : Props) :
    exceptOkB (SyncEngine.create_or_update_notion ad pid props) = true := by
  unfold SyncEngine.create_or_update_notion
  by_cases h : strOptTruthy pid = true
  · simp [h, hok.2.2.2 _ _]
  · simp at h
    simp [h, hok.2.2.1 _]

theorem hasWriteFor_false_row_append {w : World} {k k1 : String} {r : Row}
    (h : w.hasWriteFor k = false) (hne : k1 ≠ k) :
    ({ w with row_writes := w.row_writes ++ [(k1, r)] } : World).hasWriteFor k = false := by
  simp only [World.hasWriteFor, World.hasRowWriteFor, World.hasMetaWriteFor,
    World.hasNotionWriteFor, Bool.or_eq_false_iff, List.any_append, List.any_cons,
    List.any_nil] at h ⊢
  simp_all [hne]
  tauto

theorem hasWriteFor_false_meta_append {w : World} {k : String} {m : MetaRecord}
    (h : w.hasWriteFor k = false) (hne : m.key ≠ k) :
    ({ w with meta_writes := w.meta_writes ++ [m] } : World).hasWriteFor k = false := by
  simp only [World.hasWriteFor, World.hasRowWriteFor, World.hasMetaWriteFor,
    World.hasNotionWriteFor, Bool.or_eq_false_iff, List.any_append, List.any_cons,
    List.any_nil] at h ⊢
  simp_all [hne]
  tauto

theorem hasWriteFor_false_notion_append {w : World} {k k1 : String}
    {pid : Option String} {props : Props}
    (h : w.hasWriteFor k = false) (hne : k1 ≠ k) :
    ({ w with notion_writes := w.notion_writes ++ [(k1, pid, props)] } : World).hasWriteFor k =
      false := by
  simp only [World.hasWriteFor, World.hasRowWriteFor, World.hasMetaWriteFor,
    World.hasNotionWriteFor, Bool.or_eq_false_iff, List.any_append, List.any_cons,
    List.any_nil] at h ⊢
  simp_all [hne]
  tauto

theorem creates_in_sheets_loop_dry (cfg : AppConfig) (ad : Adapters) (N : Idx)
    (ks : List String) : ∀ s w,
    SyncEngine.creates_in_sheets_loop cfg ad N true ks s w =
      .ok { s with created_in_sheets := s.created_in_sheets + ks.length } w := by
  induction ks with
  | nil => intro s w; simp [SyncEngine.creates_in_sheets_loop]
  | cons k ks ih =>
    intro s w
    have harith : s.created_in_sheets + (ks.length + 1) = s.created_in_sheets + 1 + ks.length := by
      omega
    simp [SyncEngine.creates_in_sheets_loop, ih, harith]

theorem creates_in_sheets_loop_allOk {cfg : AppConfig} {ad : Adapters} {N : Idx}
    (hok : ad.allOk) (ks : List String) : ∀ s w, ∃ w',
    SyncEngine.creates_in_sheets_loop cfg ad N false ks s w =
      .ok { s with created_in_sheets := s.created_in_sheets + ks.length } w' := by
  induction ks with
  | nil =>
    intro s w
    exact ⟨w, by simp [SyncEngine.creates_in_sheets_loop]⟩
  | cons k ks ih =>
    intro s w
    simp only [SyncEngine.creates_in_sheets_loop]
    cases hrow : ad.upsert_row cfg.sync.key k
        (SyncEngine.row_values_from_notion cfg ((lookupKey N k).getD [])) with
    | error e =>
      have hco := hok.1 cfg.sync.key k
        (SyncEngine.row_values_from_notion cfg ((lookupKey N k).getD []))
      rw [hrow] at hco
      exact absurd hco (by simp [exceptOkB])
    | ok u =>
      cases hmeta : ad.upsert_meta (SyncEngine.meta_from_notion_row cfg ad k
          ((lookupKey N k).getD []) (SyncEngine.row_values_from_notion cfg ((lookupKey N k).getD []))) with
      | error e =>
        have hco := hok.2.1 (SyncEngine.meta_from_notion_row cfg ad k
          ((lookupKey N k).getD []) (SyncEngine.row_values_from_notion cfg ((lookupKey N k).getD [])))
        rw [hmeta] at hco
        exact absurd hco (by simp [exceptOkB])
      | ok u2 =>
        obtain ⟨w', hw'⟩ := ih { s with created_in_sheets := s.created_in_sheets + 1 }
          { w with
              row_writes := w.row_writes ++
                [(k, SyncEngine.row_values_from_notion cfg ((lookupKey N k).getD []))]
              meta_writes := w.meta_writes ++
                [SyncEngine.meta_from_notion_row cfg ad k ((lookupKey N k).getD [])
                  (SyncEngine.row_values_from_notion cfg ((lookupKey N k).getD []))] }
        refine ⟨w', ?_⟩
        have harith : s.created_in_sheets + (ks.length + 1) =
            s.created_in_sheets + 1 + ks.length := by omega
        simp only [hrow, hmeta]
        simp [harith, hw']

theorem creates_in_sheets_loop_no_write {cfg : AppConfig} {ad : Adapters} {N : Idx}
    {dry : Bool} {k : String} (ks : List String) : ∀ s w, k ∉ ks → w.hasWriteFor k = false →
    ((SyncEngine.creates_in_sheets_loop cfg ad N dry ks s w).world).hasWriteFor k = false := by
  induction ks with
  | nil =>
    intro s w _ hw
    simpa [SyncEngine.creates_in_sheets_loop, PhaseRes.world] using hw
  | cons k1 ks ih =>
    intro s w hk hw
    have hk1 : k1 ≠ k := fun h => hk (h ▸ List.mem_cons_self _ _)
    have hks : k ∉ ks := fun h => hk (List.mem_cons_of_mem _ h)
    simp only [SyncEngine.creates_in_sheets_loop]
    by_cases hdry : dry = true
    · subst hdry
      simp only [if_pos rfl]
      exact ih _ _ hks hw
    · simp at hdry
      subst hdry
      simp only [Bool.false_eq_true, if_false]
      cases hrow : ad.upsert_row cfg.sync.key k1
          (SyncEngine.row_values_from_notion cfg ((lookupKey N k1).getD [])) with
      | error e => simpa [PhaseRes.world] using hw
      | ok u =>
        cases hmeta : ad.upsert_meta (SyncEngine.meta_from_notion_row cfg ad k1
            ((lookupKey N k1).getD [])
            (SyncEngine.row_values_from_notion cfg ((lookupKey N k1).getD []))) with
        | error e =>
          simp only [PhaseRes.world]
          exact hasWriteFor_false_row_append hw hk1
        | ok u2 =>
          refine ih _ _ hks ?_
          refine hasWriteFor_false_meta_append (hasWriteFor_false_row_append hw hk1) ?_
          simp [SyncEngine.meta_from_notion_row, hk1]

theorem creates_in_notion_loop_dry (cfg : AppConfig) (ad : Adapters) (S : Idx)
    (ks : List String) : ∀ s w,
    SyncEngine.creates_in_notion_loop cfg ad S true ks s w =
      .ok { s with created_in_notion := s.created_in_notion + ks.length } w := by
  induction ks with
  | nil => intro s w; simp [SyncEngine.creates_in_notion_loop]
  | cons k ks ih =>
    intro s w
    have harith : s.created_in_notion + (ks.length + 1) = s.created_in_notion + 1 + ks.length := by
      omega
    simp [SyncEngine.creates_in_notion_loop, ih, harith]

theorem creates_in_notion_loop_allOk {cfg : AppConfig} {ad : Adapters} {S : Idx}
    (hok : ad.allOk) (ks : List String) : ∀ s w, ∃ w',
    SyncEngine.creates_in_notion_loop cfg ad S false ks s w =
      .ok { s with created_in_notion := s.created_in_notion + ks.length } w' := by
  induction ks with
  | nil =>
    intro s w
    exact ⟨w, by simp [SyncEngine.creates_in_notion_loop]⟩
  | cons k ks ih =>
    intro s w
    simp only [SyncEngine.creates_in_notion_loop]
    cases hcn : SyncEngine.create_or_update_notion ad Option.none
        (SyncEngine.build_notion_properties_from_sheet_row cfg ((lookupKey S k).getD [])) with
    | error e =>
      have hco := create_or_update_notion_allOk hok Option.none
        (SyncEngine.build_notion_properties_from_sheet_row cfg ((lookupKey S k).getD []))
      rw [hcn] at hco
      exact absurd hco (by simp [exceptOkB])
    | ok page =>
      cases hmeta : ad.upsert_meta
          { key := k
            notion_page_id := page.id
            notion_last_edited_time := page.last_edited_time
            sheets_row_hash := Option.some (compute_row_hash cfg.sync.columns ((lookupKey S k).getD []))
            last_synced_at := Option.some ad.now } with
      | error e =>
        have hco := hok.2.1
          { key := k
            notion_page_id := page.id
            notion_last_edited_time := page.last_edited_time
            sheets_row_hash := Option.some (compute_row_hash cfg.sync.columns ((lookupKey S k).getD []))
            last_synced_at := Option.some ad.now }
        rw [hmeta] at hco
        exact absurd hco (by simp [exceptOkB])
      | ok u2 =>
        obtain ⟨w', hw'⟩ := ih { s with created_in_notion := s.created_in_notion + 1 }
          { w with
              notion_writes := w.notion_writes ++
                [(k, Option.none,
                  SyncEngine.build_notion_properties_from_sheet_row cfg ((lookupKey S k).getD []))]
              meta_writes := w.meta_writes ++
                [{ key := k
                   notion_page_id := page.id
                   notion_last_edited_time := page.last_edited_time
                   sheets_row_hash :=
                     Option.some (compute_row_hash cfg.sync.columns ((lookupKey S k).getD []))
                   last_synced_at := Option.some ad.now }] }
        refine ⟨w', ?_⟩
        have harith : s.created_in_notion + (ks.length + 1) =
            s.created_in_notion + 1 + ks.length := by omega
        simp only [hcn, hmeta]
        simp [harith, hw']

theorem creates_in_notion_loop_no_write {cfg : AppConfig} {ad : Adapters} {S : Idx}
    {dry : Bool} {k : String} (ks : List String) : ∀ s w, k ∉ ks → w.hasWriteFor k = false →
    ((SyncEngine.creates_in_notion_loop cfg ad S dry ks s w).world).hasWriteFor k = false := by
  induction ks with
  | nil =>
    intro s w _ hw
    simpa [SyncEngine.creates_in_notion_loop, PhaseRes.world] using hw
  | cons k1 ks ih =>
    intro s w hk hw
    have hk1 : k1 ≠ k := fun h => hk (h ▸ List.mem_cons_self _ _)
    have hks : k ∉ ks := fun h => hk (List.mem_cons_of_mem _ h)
    simp only [SyncEngine.creates_in_notion_loop]
    by_cases hdry : dry = true
    · subst hdry
      simp only [if_pos rfl]
      exact ih _ _ hks hw
    · simp at hdry
      subst hdry
      simp only [Bool.false_eq_true, if_false]
      cases hcn : SyncEngine.create_or_update_notion ad Option.none
          (SyncEngine.build_notion_properties_from_sheet_row cfg ((lookupKey S k1).getD [])) with
      | error e => simpa [PhaseRes.world] using hw
      | ok page =>
        dsimp only
        cases hmeta : ad.upsert_meta
            { key := k1
              notion_page_id := page.id
              notion_last_edited_time := page.last_edited_time
              sheets_row_hash :=
                Option.some (compute_row_hash cfg.sync.columns ((lookupKey S k1).getD []))
              last_synced_at := Option.some ad.now } with
        | error e =>
          simp only [PhaseRes.world]
          exact hasWriteFor_false_notion_append hw hk1
        | ok u2 =>
          dsimp only
          refine ih _ _ hks ?_
          refine hasWriteFor_false_meta_append (hasWriteFor_false_notion_append hw hk1) ?_
          simp [hk1]

theorem updates_sheets_loop_dry (cfg : AppConfig) (ad : Adapters) (N : Idx)
    (ks : List String) : ∀ s w,
    SyncEngine.updates_sheets_loop cfg ad N true ks s w =
      .ok { s with updated_sheets := s.updated_sheets + ks.length } w := by
  induction ks with
  | nil => intro s w; simp [SyncEngine.updates_sheets_loop]
  | cons k ks ih =>
    intro s w
    have harith : s.updated_sheets + (ks.length + 1) = s.updated_sheets + 1 + ks.length := by
      omega
    simp [SyncEngine.updates_sheets_loop, ih, harith]

theorem updates_sheets_loop_allOk {cfg : AppConfig} {ad : Adapters} {N : Idx}
    (hok : ad.allOk) (ks : List String) : ∀ s w, ∃ w',
    SyncEngine.updates_sheets_loop cfg ad N false ks s w =
      .ok { s with updated_sheets := s.updated_sheets + ks.length } w' := by
  induction ks with
  | nil =>
    intro s w
    exact ⟨w, by simp [SyncEngine.updates_sheets_loop]⟩
  | cons k ks ih =>
    intro s w
    simp only [SyncEngine.updates_sheets_loop]
    cases hrow : ad.upsert_row cfg.sync.key k
        (SyncEngine.row_values_from_notion cfg ((lookupKey N k).getD [])) with
    | error e =>
      have hco := hok.1 cfg.sync.key k
        (SyncEngine.row_values_from_notion cfg ((lookupKey N k).getD []))
      rw [hrow] at hco
      exact absurd hco (by simp [exceptOkB])
    | ok u =>
      cases hmeta : ad.upsert_meta (SyncEngine.meta_from_notion_row cfg ad k
          ((lookupKey N k).getD [])
          (SyncEngine.row_values_from_notion cfg ((lookupKey N k).getD []))) with
      | error e =>
        have hco := hok.2.1 (SyncEngine.meta_from_notion_row cfg ad k
          ((lookupKey N k).getD [])
          (SyncEngine.row_values_from_notion cfg ((lookupKey N k).getD [])))
        rw [hmeta] at hco
        exact absurd hco (by simp [exceptOkB])
      | ok u2 =>
        obtain ⟨w', hw'⟩ := ih { s with updated_sheets := s.updated_sheets + 1 }
          { w with
              row_writes := w.row_writes ++
                [(k, SyncEngine.row_values_from_notion cfg ((lookupKey N k).getD []))]
              meta_writes := w.meta_writes ++
                [SyncEngine.meta_from_notion_row cfg ad k ((lookupKey N k).getD [])
                  (SyncEngine.row_values_from_notion cfg ((lookupKey N k).getD []))] }
        refine ⟨w', ?_⟩
        have harith : s.updated_sheets + (ks.length + 1) =
            s.updated_sheets + 1 + ks.length := by omega
        simp only [hrow, hmeta]
        simp [harith, hw']

theorem updates_sheets_loop_no_write {cfg : AppConfig} {ad : Adapters} {N : Idx}
    {dry : Bool} {k : String} (ks : List String) : ∀ s w, k ∉ ks → w.hasWriteFor k = false →
    ((SyncEngine.updates_sheets_loop cfg ad N dry ks s w).world).hasWriteFor k = false := by
  induction ks with
  | nil =>
    intro s w _ hw
    simpa [SyncEngine.updates_sheets_loop, PhaseRes.world] using hw
  | cons k1 ks ih =>
    intro s w hk hw
    have hk1 : k1 ≠ k := fun h => hk (h ▸ List.mem_cons_self _ _)
    have hks : k ∉ ks := fun h => hk (List.mem_cons_of_mem _ h)
    simp only [SyncEngine.updates_sheets_loop]
    by_cases hdry : dry = true
    · subst hdry
      simp only [if_pos rfl]
      exact ih _ _ hks hw
    · simp at hdry
      subst hdry
      simp only [Bool.false_eq_true, if_false]
      cases hrow : ad.upsert_row cfg.sync.key k1
          (SyncEngine.row_values_from_notion cfg ((lookupKey N k1).getD [])) with
      | error e => simpa [PhaseRes.world] using hw
      | ok u =>
        cases hmeta : ad.upsert_meta (SyncEngine.meta_from_notion_row cfg ad k1
            ((lookupKey N k1).getD [])
            (SyncEngine.row_values_from_notion cfg ((lookupKey N k1).getD []))) with
        | error e =>
          simp only [PhaseRes.world]
          exact hasWriteFor_false_row_append hw hk1
        | ok u2 =>
          refine ih _ _ hks ?_
          refine hasWriteFor_false_meta_append (hasWriteFor_false_row_append hw hk1) ?_
          simp [SyncEngine.meta_from_notion_row, hk1]

theorem updates_notion_loop_dry (cfg : AppConfig) (ad : Adapters) (S N : Idx)
    (M : List (String × MetaRecord)) (ks : List String) : ∀ s w,
    SyncEngine.updates_notion_loop cfg ad S N M true ks s w =
      .ok { s with updated_notion := s.updated_notion + ks.length } w := by
  induction ks with
  | nil => intro s w; simp [SyncEngine.updates_notion_loop]
  | cons k ks ih =>
    intro s w
    have harith : s.updated_notion + (ks.length + 1) = s.updated_notion + 1 + ks.length := by
      omega
    simp [SyncEngine.updates_notion_loop, ih, harith]

theorem updates_notion_loop_allOk {cfg : AppConfig} {ad : Adapters} {S N : Idx}
    {M : List (String × MetaRecord)} (hok : ad.allOk) (ks : List String) : ∀ s w, ∃ w',
    SyncEngine.updates_notion_loop cfg ad S N M false ks s w =
      .ok { s with updated_notion := s.updated_notion + ks.length } w' := by
  induction ks with
  | nil =>
    intro s w
    exact ⟨w, by simp [SyncEngine.updates_notion_loop]⟩
  | cons k ks ih =>
    intro s w
    simp only [SyncEngine.updates_notion_loop]
    cases hcn : SyncEngine.create_or_update_notion ad (SyncEngine.page_id_for_update M N k)
        (SyncEngine.build_notion_properties_from_sheet_row cfg ((lookupKey S k).getD [])) with
    | error e =>
      have hco := create_or_update_notion_allOk hok (SyncEngine.page_id_for_update M N k)
        (SyncEngine.build_notion_properties_from_sheet_row cfg ((lookupKey S k).getD []))
      rw [hcn] at hco
      exact absurd hco (by simp [exceptOkB])
    | ok page =>
      cases hmeta : ad.upsert_meta
          { key := k
            notion_page_id := page.id
            notion_last_edited_time := page.last_edited_time
            sheets_row_hash := Option.some (compute_row_hash cfg.sync.columns ((lookupKey S k).getD []))
            last_synced_at := Option.some ad.now } with
      | error e =>
        have hco := hok.2.1
          { key := k
            notion_page_id := page.id
            notion_last_edited_time := page.last_edited_time
            sheets_row_hash := Option.some (compute_row_hash cfg.sync.columns ((lookupKey S k).getD []))
            last_synced_at := Option.some ad.now }
        rw [hmeta] at hco
        exact absurd hco (by simp [exceptOkB])
      | ok u2 =>
        obtain ⟨w', hw'⟩ := ih { s with updated_notion := s.updated_notion + 1 }
          { w with
              notion_writes := w.notion_writes ++
                [(k, SyncEngine.page_id_for_update M N k,
                  SyncEngine.build_notion_properties_from_sheet_row cfg ((lookupKey S k).getD []))]
              meta_writes := w.meta_writes ++
                [{ key := k
                   notion_page_id := page.id
                   notion_last_edited_time := page.last_edited_time
                   sheets_row_hash :=
                     Option.some (compute_row_hash cfg.sync.columns ((lookupKey S k).getD []))
                   last_synced_at := Option.some ad.now }] }
        refine ⟨w', ?_⟩
        have harith : s.updated_notion + (ks.length + 1) =
            s.updated_notion + 1 + ks.length := by omega
        simp only [hcn, hmeta]
        simp [harith, hw']

theorem updates_notion_loop_no_write {cfg : AppConfig} {ad : Adapters} {S N : Idx}
    {M : List (String × MetaRecord)} {dry : Bool} {k : String} (ks : List String) :
    ∀ s w, k ∉ ks → w.hasWriteFor k = false →
    ((SyncEngine.updates_notion_loop cfg ad S N M dry ks s w).world).hasWriteFor k = false := by
  induction ks with
  | nil =>
    intro s w _ hw
    simpa [SyncEngine.updates_notion_loop, PhaseRes.world] using hw
  | cons k1 ks ih =>
    intro s w hk hw
    have hk1 : k1 ≠ k := fun h => hk (h ▸ List.mem_cons_self _ _)
    have hks : k ∉ ks := fun h => hk (List.mem_cons_of_mem _ h)
    simp only [SyncEngine.updates_notion_loop]
    by_cases hdry : dry = true
    · subst hdry
      simp only [if_pos rfl]
      exact ih _ _ hks hw
    · simp at hdry
      subst hdry
      simp only [Bool.false_eq_true, if_false]
      cases hcn : SyncEngine.create_or_update_notion ad (SyncEngine.page_id_for_update M N k1)
          (SyncEngine.build_notion_properties_from_sheet_row cfg ((lookupKey S k1).getD [])) with
      | error e => simpa [PhaseRes.world] using hw
      | ok page =>
        dsimp only
        cases hmeta : ad.upsert_meta
            { key := k1
              notion_page_id := page.id
              notion_last_edited_time := page.last_edited_time
              sheets_row_hash :=
                Option.some (compute_row_hash cfg.sync.columns ((lookupKey S k1).getD []))
              last_synced_at := Option.some ad.now } with
        | error e =>
          simp only [PhaseRes.world]
          exact hasWriteFor_false_notion_append hw hk1
        | ok u2 =>
          dsimp only
          refine ih _ _ hks ?_
          refine hasWriteFor_false_meta_append (hasWriteFor_false_notion_append hw hk1) ?_
          simp [hk1]

theorem conflicts_loop_fail {cfg : AppConfig} {ad : Adapters} {S N : Idx}
    {M : List (String × MetaRecord)} {dir : String} {dry : Bool}
    (hstrat : cfg.sync.conflict_strategy = "fail") (ks : List String) : ∀ s w,
    SyncEngine.conflicts_loop cfg ad S N M dir dry ks s w =
      .ok { s with conflicts := s.conflicts ++ ks } w := by
  induction ks with
  | nil => intro s w; simp [SyncEngine.conflicts_loop]
  | cons k ks ih =>
    intro s w
    simp [SyncEngine.conflicts_loop, hstrat, ih]

theorem conflicts_loop_sheets_wins_excluded {cfg : AppConfig} {ad : Adapters} {S N : Idx}
    {M : List (String × MetaRecord)} {dir : String} {dry : Bool}
    (hstrat : cfg.sync.conflict_strategy = "sheets_wins")
    (hdir : ¬(dir = "both" ∨ dir = "to-notion")) (ks : List String) : ∀ s w,
    SyncEngine.conflicts_loop cfg ad S N M dir dry ks s w =
      .ok { s with conflicts := s.conflicts ++ ks } w := by
  induction ks with
  | nil => intro s w; simp [SyncEngine.conflicts_loop]
  | cons k ks ih =>
    intro s w
    simp [SyncEngine.conflicts_loop, hstrat, hdir, ih]

theorem conflicts_loop_notion_wins_excluded {cfg : AppConfig} {ad : Adapters} {S N : Idx}
    {M : List (String × MetaRecord)} {dir : String} {dry : Bool}
    (hstrat : cfg.sync.conflict_strategy = "notion_wins")
    (hdir : ¬(dir = "both" ∨ dir = "to-sheets")) (ks : List String) : ∀ s w,
    SyncEngine.conflicts_loop cfg ad S N M dir dry ks s w =
      .ok { s with conflicts := s.conflicts ++ ks } w := by
  induction ks with
  | nil => intro s w; simp [SyncEngine.conflicts_loop]
  | cons k ks ih =>
    intro s w
    simp [SyncEngine.conflicts_loop, hstrat, hdir, ih]

theorem conflicts_loop_other_strategy {cfg : AppConfig} {ad : Adapters} {S N : Idx}
    {M : List (String × MetaRecord)} {dir : String} {dry : Bool}
    (h1 : cfg.sync.conflict_strategy ≠ "fail")
    (h2 : cfg.sync.conflict_strategy ≠ "notion_wins")
    (h3 : cfg.sync.conflict_strategy ≠ "sheets_wins") (ks : List String) : ∀ s w,
    SyncEngine.conflicts_loop cfg ad S N M dir dry ks s w = .ok s w := by
  induction ks with
  | nil => intro s w; simp [SyncEngine.conflicts_loop]
  | cons k ks ih =>
    intro s w
    simp [SyncEngine.conflicts_loop, h1, h2, h3, ih]

theorem conflicts_loop_sheets_wins_dry {cfg : AppConfig} {ad : Adapters} {S N : Idx}
    {M : List (String × MetaRecord)} {dir : String}
    (hstrat : cfg.sync.conflict_strategy = "sheets_wins")
    (hdir : dir = "both" ∨ dir = "to-notion") (ks : List String) : ∀ s w,
    SyncEngine.conflicts_loop cfg ad S N M dir true ks s w =
      .ok { s with updated_notion := s.updated_notion + ks.length } w := by
  induction ks with
  | nil => intro s w; simp [SyncEngine.conflicts_loop]
  | cons k ks ih =>
    intro s w
    have harith : s.updated_notion + (ks.length + 1) = s.updated_notion + 1 + ks.length := by
      omega
    simp [SyncEngine.conflicts_loop, hstrat, hdir, ih, harith]

theorem conflicts_loop_notion_wins_dry {cfg : AppConfig} {ad : Adapters} {S N : Idx}
    {M : List (String × MetaRecord)} {dir : String}
    (hstrat : cfg.sync.conflict_strategy = "notion_wins")
    (hdir : dir = "both" ∨ dir = "to-sheets") (ks : List String) : ∀ s w,
    SyncEngine.conflicts_loop cfg ad S N M dir true ks s w =
      .ok { s with updated_sheets := s.updated_sheets + ks.length } w := by
  induction ks with
  | nil => intro s w; simp [SyncEngine.conflicts_loop]
  | cons k ks ih =>
    intro s w
    have harith : s.updated_sheets + (ks.length + 1) = s.updated_sheets + 1 + ks.length := by
      omega
    simp [SyncEngine.conflicts_loop, hstrat, hdir, ih, harith]

theorem hasNotionWriteFor_extend {w : World} {k0 : String}
    {x : String × Option String × Props} {ms : List MetaRecord}
    (h : w.hasNotionWriteFor k0 = true) :
    ({ w with notion_writes := w.notion_writes ++ [x], meta_writes := ms } :
      World).hasNotionWriteFor k0 = true := by
  show (w.notion_writes ++ [x]).any (fun e => e.1 == k0) = true
  rw [List.any_append]
  simp only [World.hasNotionWriteFor] at h
  rw [h]
  rfl

theorem hasRowWriteFor_extend {w : World} {k0 : String} {x : String × Row}
    {ms : List MetaRecord} (h : w.hasRowWriteFor k0 = true) :
    ({ w with row_writes := w.row_writes ++ [x], meta_writes := ms } :
      World).hasRowWriteFor k0 = true := by
  show (w.row_writes ++ [x]).any (fun e => e.1 == k0) = true
  rw [List.any_append]
  simp only [World.hasRowWriteFor] at h
  rw [h]
  rfl

theorem conflicts_loop_sheets_wins_allOk {cfg : AppConfig} {ad : Adapters} {S N : Idx}
    {M : List (String × MetaRecord)} {dir : String}
    (hstrat : cfg.sync.conflict_strategy = "sheets_wins")
    (hdir : dir = "both" ∨ dir = "to-notion") (hok : ad.allOk) (ks : List String) :
    ∀ s w, ∃ w',
    SyncEngine.conflicts_loop cfg ad S N M dir false ks s w =
      .ok { s with updated_notion := s.updated_notion + ks.length } w' ∧
    (∀ k0, w.hasNotionWriteFor k0 = true → w'.hasNotionWriteFor k0 = true) ∧
    (∀ k0 ∈ ks, w'.hasNotionWriteFor k0 = true) := by
  induction ks with
  | nil =>
    intro s w
    refine ⟨w, by simp [SyncEngine.conflicts_loop], fun k0 h => h, by simp⟩
  | cons k ks ih =>
    intro s w
    simp only [SyncEngine.conflicts_loop, hstrat]
    cases hcn : SyncEngine.create_or_update_notion ad (SyncEngine.page_id_for_update M N k)
        (SyncEngine.build_notion_properties_from_sheet_row cfg ((lookupKey S k).getD [])) with
    | error e =>
      have hco := create_or_update_notion_allOk hok (SyncEngine.page_id_for_update M N k)
        (SyncEngine.build_notion_properties_from_sheet_row cfg ((lookupKey S k).getD []))
      rw [hcn] at hco
      exact absurd hco (by simp [exceptOkB])
    | ok page =>
      cases hmeta : ad.upsert_meta
          { key := k
            notion_page_id := page.id
            notion_last_edited_time := page.last_edited_time
            sheets_row_hash := Option.some (compute_row_hash cfg.sync.columns ((lookupKey S k).getD []))
            last_synced_at := Option.some ad.now } with
      | error e =>
        have hco := hok.2.1
          { key := k
            notion_page_id := page.id
            notion_last_edited_time := page.last_edited_time
            sheets_row_hash := Option.some (compute_row_hash cfg.sync.columns ((lookupKey S k).getD []))
            last_synced_at := Option.some ad.now }
        rw [hmeta] at hco
        exact absurd hco (by simp [exceptOkB])
      | ok u2 =>
        obtain ⟨w', hw', hmono, hcov⟩ := ih { s with updated_notion := s.updated_notion + 1 }
          { w with
              notion_writes := w.notion_writes ++
                [(k, SyncEngine.page_id_for_update M N k,
                  SyncEngine.build_notion_properties_from_sheet_row cfg ((lookupKey S k).getD []))]
              meta_writes := w.meta_writes ++
                [{ key := k
                   notion_page_id := page.id
                   notion_last_edited_time := page.last_edited_time
                   sheets_row_hash :=
                     Option.some (compute_row_hash cfg.sync.columns ((lookupKey S k).getD []))
                   last_synced_at := Option.some ad.now }] }
        have harith : s.updated_notion + (ks.length + 1) = s.updated_notion + 1 + ks.length := by
          omega
        have hmidk : ({ w with
            notion_writes := w.notion_writes ++
              [(k, SyncEngine.page_id_for_update M N k,
                SyncEngine.build_notion_properties_from_sheet_row cfg ((lookupKey S k).getD []))]
            meta_writes := w.meta_writes ++
              [{ key := k
                 notion_page_id := page.id
                 notion_last_edited_time := page.last_edited_time
                 sheets_row_hash :=
                   Option.some (compute_row_hash cfg.sync.columns ((lookupKey S k).getD []))
                 last_synced_at := Option.some ad.now }] } : World).hasNotionWriteFor k = true := by
          simp [World.hasNotionWriteFor, List.any_append]
        refine ⟨w', ?_, ?_, ?_⟩
        · rcases hdir with hd | hd <;>
            · subst hd
              simp only [hcn, hmeta]
              simp [hw', harith]
        · intro k0 h0
          exact hmono k0 (hasNotionWriteFor_extend h0)
        · intro k0 hk0
          rcases List.mem_cons.mp hk0 with rfl | hk0
          · exact hmono k0 hmidk
          · exact hcov k0 hk0

theorem conflicts_loop_notion_wins_allOk {cfg : AppConfig} {ad : Adapters} {S N : Idx}
    {M : List (String × MetaRecord)} {dir : String}
    (hstrat : cfg.sync.conflict_strategy = "notion_wins")
    (hdir : dir = "both" ∨ dir = "to-sheets") (hok : ad.allOk) (ks : List String) :
    ∀ s w, ∃ w',
    SyncEngine.conflicts_loop cfg ad S N M dir false ks s w =
      .ok { s with updated_sheets := s.updated_sheets + ks.length } w' ∧
    (∀ k0, w.hasRowWriteFor k0 = true → w'.hasRowWriteFor k0 = true) ∧
    (∀ k0 ∈ ks, w'.hasRowWriteFor k0 = true) := by
  induction ks with
  | nil =>
    intro s w
    refine ⟨w, by simp [SyncEngine.conflicts_loop], fun k0 h => h, by simp⟩
  | cons k ks ih =>
    intro s w
    simp only [SyncEngine.conflicts_loop, hstrat]
    cases hrow : ad.upsert_row cfg.sync.key k
        (SyncEngine.row_values_from_notion cfg ((lookupKey N k).getD [])) with
    | error e =>
      have hco := hok.1 cfg.sync.key k
        (SyncEngine.row_values_from_notion cfg ((lookupKey N k).getD []))
      rw [hrow] at hco
      exact absurd hco (by simp [exceptOkB])
    | ok u =>
      cases hmeta : ad.upsert_meta (SyncEngine.meta_from_notion_row cfg ad k
          ((lookupKey N k).getD [])
          (SyncEngine.row_values_from_notion cfg ((lookupKey N k).getD []))) with
      | error e =>
        have hco := hok.2.1 (SyncEngine.meta_from_notion_row cfg ad k
          ((lookupKey N k).getD [])
          (SyncEngine.row_values_from_notion cfg ((lookupKey N k).getD [])))
        rw [hmeta] at hco
        exact absurd hco (by simp [exceptOkB])
      | ok u2 =>
        obtain ⟨w', hw', hmono, hcov⟩ := ih { s with updated_sheets := s.updated_sheets + 1 }
          { w with
              row_writes := w.row_writes ++
                [(k, SyncEngine.row_values_from_notion cfg ((lookupKey N k).getD []))]
              meta_writes := w.meta_writes ++
                [SyncEngine.meta_from_notion_row cfg ad k ((lookupKey N k).getD [])
                  (SyncEngine.row_values_from_notion cfg ((lookupKey N k).getD []))] }
        have harith : s.updated_sheets + (ks.length + 1) = s.updated_sheets + 1 + ks.length := by
          omega
        have hmidk : ({ w with
            row_writes := w.row_writes ++
              [(k, SyncEngine.row_values_from_notion cfg ((lookupKey N k).getD []))]
            meta_writes := w.meta_writes ++
              [SyncEngine.meta_from_notion_row cfg ad k ((lookupKey N k).getD [])
                (SyncEngine.row_values_from_notion cfg ((lookupKey N k).getD []))] } :
              World).hasRowWriteFor k = true := by
          simp [World.hasRowWriteFor, List.any_append]
        refine ⟨w', ?_, ?_, ?_⟩
        · rcases hdir with hd | hd <;>
            · subst hd
              simp only [hrow, hmeta]
              simp [hw', harith]
        · intro k0 h0
          exact hmono k0 (hasRowWriteFor_extend h0)
        · intro k0 hk0
          rcases List.mem_cons.mp hk0 with rfl | hk0
          · exact hmono k0 hmidk
          · exact hcov k0 hk0

theorem PhaseRes.andThen_ok_inv {r : PhaseRes} {f : Summary → World → PhaseRes}
    {s' : Summary} {w' : World} (h : r.andThen f = .ok s' w') :
    ∃ s w, r = .ok s w ∧ f s w = .ok s' w' := by
  cases r with
  | ok s w => exact ⟨s, w, rfl, h⟩
  | err e w => simp [PhaseRes.andThen] at h

theorem PhaseRes.andThen_world_no_write {r : PhaseRes} {f : Summary → World → PhaseRes}
    {k : String} (hr : (r.world).hasWriteFor k = false)
    (hf : ∀ s w, w.hasWriteFor k = false → ((f s w).world).hasWriteFor k = false) :
    ((r.andThen f).world).hasWriteFor k = false := by
  cases r with
  | ok s w => exact hf s w hr
  | err e w => exact hr

theorem apply_creates_updates_no_write {cfg : AppConfig} {ad : Adapters} {S N : Idx}
    {M : List (String × MetaRecord)} {d : DiffResult} {direction : String} {dry_run : Bool}
    {k : String} (s0 : Summary)
    (h1 : k ∉ d.to_create_in_sheets) (h2 : k ∉ d.to_create_in_notion)
    (h3 : k ∉ d.to_update_sheets) (h4 : k ∉ d.to_update_notion) :
    ((SyncEngine.apply_creates_updates cfg ad S N M d direction dry_run s0).world).hasWriteFor k =
      false := by
  unfold SyncEngine.apply_creates_updates
  apply PhaseRes.andThen_world_no_write
  · apply PhaseRes.andThen_world_no_write
    · apply PhaseRes.andThen_world_no_write
      · by_cases hc : direction = "both" ∨ direction = "to-sheets"
        · simp only [if_pos hc]
          exact creates_in_sheets_loop_no_write _ _ _ h1 rfl
        · simp only [if_neg hc]
          rfl
      · intro s w hw
        by_cases hc : direction = "both" ∨ direction = "to-notion"
        · simp only [if_pos hc]
          exact creates_in_notion_loop_no_write _ _ _ h2 hw
        · simp only [if_neg hc]
          exact hw
    · intro s w hw
      by_cases hc : direction = "both" ∨ direction = "to-sheets"
      · simp only [if_pos hc]
        exact updates_sheets_loop_no_write _ _ _ h3 hw
      · simp only [if_neg hc]
        exact hw
  · intro s w hw
    by_cases hc : direction = "both" ∨ direction = "to-notion"
    · simp only [if_pos hc]
      exact updates_notion_loop_no_write _ _ _ h4 hw
    · simp only [if_neg hc]
      exact hw

theorem apply_all_fail_conflicts {cfg : AppConfig} {ad : Adapters} {S N : Idx}
    {M : List (String × MetaRecord)} {d : DiffResult} {direction : String} {dry_run : Bool}
    {k : String} (s0 : Summary)
    (hstrat : cfg.sync.conflict_strategy = "fail") (hk : k ∈ d.conflicts) :
    ∀ s' w', SyncEngine.apply_all cfg ad S N M d direction dry_run s0 = .ok s' w' →
      k ∈ s'.conflicts := by
  intro s' w' h
  unfold SyncEngine.apply_all at h
  obtain ⟨s4, w4, h4, h5⟩ := PhaseRes.andThen_ok_inv h
  rw [conflicts_loop_fail hstrat] at h5
  cases h5
  exact List.mem_append_right _ hk

theorem apply_all_fail_no_write (cfg : AppConfig) (ad : Adapters) (S N : Idx)
    (M : List (String × MetaRecord)) (d : DiffResult) (direction : String) (dry_run : Bool)
    (k : String) (s0 : Summary)
    (hstrat : cfg.sync.conflict_strategy = "fail")
    (h1 : k ∉ d.to_create_in_sheets) (h2 : k ∉ d.to_create_in_notion)
    (h3 : k ∉ d.to_update_sheets) (h4 : k ∉ d.to_update_notion) :
    ((SyncEngine.apply_all cfg ad S N M d direction dry_run s0).world).hasWriteFor k = false := by
  unfold SyncEngine.apply_all
  apply PhaseRes.andThen_world_no_write
  · exact apply_creates_updates_no_write s0 h1 h2 h3 h4
  · intro s w hw
    rw [conflicts_loop_fail hstrat]
    exact hw

theorem run_valid_eq (cfg : AppConfig) (ad : Adapters) (sheet_rows : List Row)
    (meta_map : List (String × MetaRecord)) (pages : List Page) (direction : String)
    (dry_run : Bool)
    (hdir : direction = "both" ∨ direction = "to-sheets" ∨ direction = "to-notion") :
    SyncEngine.run cfg ad sheet_rows meta_map pages direction dry_run =
      (match SyncEngine.apply_all cfg ad (SyncEngine.build_index_by_key cfg sheet_rows)
          (SyncEngine.build_notion_index cfg pages) meta_map
          (SyncEngine._diff cfg (SyncEngine.build_index_by_key cfg sheet_rows)
            (SyncEngine.build_notion_index cfg pages) meta_map) direction dry_run
          { created_in_sheets := 0, created_in_notion := 0, updated_sheets := 0,
            updated_notion := 0, conflicts := [], dry_run := dry_run,
            direction := direction } with
        | .ok s w => (Except.ok s, w)
        | .err e w => (Except.error e, w)) := by
  unfold SyncEngine.run
  rw [if_neg (not_not_intro hdir)]

/-- C4: under the `fail` conflict policy, every key the classifier marks as a
conflict is listed in the returned summary's conflict list (whenever the run
returns a summary at all), and the run performs no adapter write for that key
and leaves its baseline entry untouched. -/
theorem C4_conflict_fail_closed (cfg : AppConfig) (ad : Adapters)
    (sheet_rows : List Row) (meta_map : List (String × MetaRecord)) (pages : List Page)
    (direction : String) (dry_run : Bool) (k : String)
    (hstrat : cfg.sync.conflict_strategy = "fail")
    (hk : k ∈ (SyncEngine._diff cfg (SyncEngine.build_index_by_key cfg sheet_rows)
      (SyncEngine.build_notion_index cfg pages) meta_map).conflicts) :
    (∀ s, (SyncEngine.run cfg ad sheet_rows meta_map pages direction dry_run).1 = Except.ok s →
      k ∈ s.conflicts) ∧
    (SyncEngine.run cfg ad sheet_rows meta_map pages direction dry_run).2.hasWriteFor k =
      false := by
  have hclass := (diff_conflicts_mem.mp hk).2
  have h1 : k ∉ (SyncEngine._diff cfg (SyncEngine.build_index_by_key cfg sheet_rows)
      (SyncEngine.build_notion_index cfg pages) meta_map).to_create_in_sheets := fun hc => by
    have h2 := (diff_to_create_in_sheets_mem.mp hc).2
    rw [hclass] at h2
    exact SyncAction.noConfusion h2
  have h2 : k ∉ (SyncEngine._diff cfg (SyncEngine.build_index_by_key cfg sheet_rows)
      (SyncEngine.build_notion_index cfg pages) meta_map).to_create_in_notion := fun hc => by
    have h2 := (diff_to_create_in_notion_mem.mp hc).2
    rw [hclass] at h2
    exact SyncAction.noConfusion h2
  have h3 : k ∉ (SyncEngine._diff cfg (SyncEngine.build_index_by_key cfg sheet_rows)
      (SyncEngine.build_notion_index cfg pages) meta_map).to_update_sheets := fun hc => by
    have h2 := (diff_to_update_sheets_mem.mp hc).2
    rw [hclass] at h2
    exact SyncAction.noConfusion h2
  have h4 : k ∉ (SyncEngine._diff cfg (SyncEngine.build_index_by_key cfg sheet_rows)
      (SyncEngine.build_notion_index cfg pages) meta_map).to_update_notion := fun hc => by
    have h2 := (diff_to_update_notion_mem.mp hc).2
    rw [hclass] at h2
    exact SyncAction.noConfusion h2
  by_cases hdir : direction = "both" ∨ direction = "to-sheets" ∨ direction = "to-notion"
  · rw [run_valid_eq cfg ad sheet_rows meta_map pages direction dry_run hdir]
    cases happ : SyncEngine.apply_all cfg ad (SyncEngine.build_index_by_key cfg sheet_rows)
        (SyncEngine.build_notion_index cfg pages) meta_map
        (SyncEngine._diff cfg (SyncEngine.build_index_by_key cfg sheet_rows)
          (SyncEngine.build_notion_index cfg pages) meta_map) direction dry_run
        { created_in_sheets := 0, created_in_notion := 0, updated_sheets := 0,
          updated_notion := 0, conflicts := [], dry_run := dry_run,
          direction := direction } with
    | ok s w =>
      constructor
      · intro s1 hs1
        dsimp only at hs1
        cases hs1
        exact apply_all_fail_conflicts _ hstrat hk s w happ
      · have hnw := apply_all_fail_no_write cfg ad (SyncEngine.build_index_by_key cfg sheet_rows)
          (SyncEngine.build_notion_index cfg pages) meta_map
          (SyncEngine._diff cfg (SyncEngine.build_index_by_key cfg sheet_rows)
            (SyncEngine.build_notion_index cfg pages) meta_map) direction dry_run k
          { created_in_sheets := 0, created_in_notion := 0, updated_sheets := 0,
            updated_notion := 0, conflicts := [], dry_run := dry_run,
            direction := direction } hstrat h1 h2 h3 h4
        rw [happ] at hnw
        exact hnw
    | err e w =>
      constructor
      · intro s1 hs1
        dsimp only at hs1
        exact Except.noConfusion hs1
      · have hnw := apply_all_fail_no_write cfg ad (SyncEngine.build_index_by_key cfg sheet_rows)
          (SyncEngine.build_notion_index cfg pages) meta_map
          (SyncEngine._diff cfg (SyncEngine.build_index_by_key cfg sheet_rows)
            (SyncEngine.build_notion_index cfg pages) meta_map) direction dry_run k
          { created_in_sheets := 0, created_in_notion := 0, updated_sheets := 0,
            updated_notion := 0, conflicts := [], dry_run := dry_run,
            direction := direction } hstrat h1 h2 h3 h4
        rw [happ] at hnw
        exact hnw
  · unfold SyncEngine.run
    rw [if_pos hdir]
    constructor
    · intro s1 hs1
      exact Except.noConfusion hs1
    · rfl

def pageW : Page :=
  { id := Option.some "pa"
    last_edited_time := Option.some "T1"
    properties := [("K", Option.some "a"), ("V", Option.some "2")] }

/-- Adapter oracle whose calls all succeed. -/
def adOkW : Adapters :=
  { upsert_row := fun _ _ _ => .ok ()
    upsert_meta := fun _ => .ok ()
    create_page := fun _ => .ok { id := Option.some "pid", last_edited_time := Option.some "T" }
    update_page := fun _ _ => .ok { id := Option.some "pid", last_edited_time := Option.some "T" }
    now := "NOW" }

/-- C4 witness: one conflicted key under the `fail` policy on concrete inputs. -/
theorem C4_conflict_fail_closed_witness :
    cfgW.sync.conflict_strategy = "fail" ∧
    "a" ∈ (SyncEngine._diff cfgW (SyncEngine.build_index_by_key cfgW [rowSW])
      (SyncEngine.build_notion_index cfgW [pageW]) []).conflicts ∧
    ((∀ s, (SyncEngine.run cfgW adOkW [rowSW] [] [pageW] "both" false).1 = Except.ok s →
        "a" ∈ s.conflicts) ∧
      (SyncEngine.run cfgW adOkW [rowSW] [] [pageW] "both" false).2.hasWriteFor "a" = false) :=
  ⟨rfl, by decide,
    C4_conflict_fail_closed cfgW adOkW [rowSW] [] [pageW] "both" false "a" rfl (by decide)⟩

/-- C6: if the two built key indices carry exactly the same keys and every
shared key's canonical values compare equal column-by-column as text, a run
(in any valid direction, dry or not, under any policy and any adapters)
performs no adapter write at all and returns the all-zero summary with an
empty conflict list. -/
theorem C6_idempotence (cfg : AppConfig) (ad : Adapters) (sheet_rows : List Row)
    (meta_map : List (String × MetaRecord)) (pages : List Page) (direction : String)
    (dry_run : Bool)
    (hdir : direction = "both" ∨ direction = "to-sheets" ∨ direction = "to-notion")
    (hkeys : ∀ k, (lookupKey (SyncEngine.build_index_by_key cfg sheet_rows) k).isSome ↔
      (lookupKey (SyncEngine.build_notion_index cfg pages) k).isSome)
    (hvals : ∀ k rs rn,
      lookupKey (SyncEngine.build_index_by_key cfg sheet_rows) k = Option.some rs →
      lookupKey (SyncEngine.build_notion_index cfg pages) k = Option.some rn →
      valuesEqual cfg rs rn = true) :
    (SyncEngine.run cfg ad sheet_rows meta_map pages direction dry_run).1 =
      Except.ok
        { created_in_sheets := 0, created_in_notion := 0, updated_sheets := 0,
          updated_notion := 0, conflicts := [], dry_run := dry_run, direction := direction } ∧
    (SyncEngine.run cfg ad sheet_rows meta_map pages direction dry_run).2 = World.empty := by
  have hnoop : ∀ k ∈ sortedUnionKeys (SyncEngine.build_index_by_key cfg sheet_rows)
      (SyncEngine.build_notion_index cfg pages),
      SyncEngine.classify_key cfg (lookupKey (SyncEngine.build_index_by_key cfg sheet_rows) k)
        (lookupKey (SyncEngine.build_notion_index cfg pages) k) (lookupKey meta_map k) =
        SyncAction.noOp := by
    intro k hmem
    have hsome : (lookupKey (SyncEngine.build_index_by_key cfg sheet_rows) k).isSome := by
      rcases mem_sortedUnionKeys.mp hmem with h | h
      · exact mem_keys_lookup_isSome h
      · exact (hkeys k).mpr (mem_keys_lookup_isSome h)
    have hnsome : (lookupKey (SyncEngine.build_notion_index cfg pages) k).isSome :=
      (hkeys k).mp hsome
    obtain ⟨rs, hrs⟩ := Option.isSome_iff_exists.mp hsome
    obtain ⟨rn, hrn⟩ := Option.isSome_iff_exists.mp hnsome
    rw [hrs, hrn]
    simp [SyncEngine.classify_key, hvals k rs rn hrs hrn]
  have hf : ∀ (a : SyncAction), a ≠ SyncAction.noOp →
      (sortedUnionKeys (SyncEngine.build_index_by_key cfg sheet_rows)
        (SyncEngine.build_notion_index cfg pages)).filter
        (fun k => SyncEngine.classify_key cfg
          (lookupKey (SyncEngine.build_index_by_key cfg sheet_rows) k)
          (lookupKey (SyncEngine.build_notion_index cfg pages) k)
          (lookupKey meta_map k) == a) = [] := by
    intro a ha
    apply List.filter_eq_nil_iff.mpr
    intro k hk
    rw [hnoop k hk]
    simp only [beq_iff_eq]
    exact fun h => ha h.symm
  have hdrez : SyncEngine._diff cfg (SyncEngine.build_index_by_key cfg sheet_rows)
      (SyncEngine.build_notion_index cfg pages) meta_map = ⟨[], [], [], [], []⟩ := by
    simp only [SyncEngine._diff]
    rw [hf SyncAction.createInSheets (by decide), hf SyncAction.createInNotion (by decide),
      hf SyncAction.updateSheets (by decide), hf SyncAction.updateNotion (by decide),
      hf SyncAction.conflict (by decide)]
  have happly : ∀ (s0 : Summary),
      SyncEngine.apply_all cfg ad (SyncEngine.build_index_by_key cfg sheet_rows)
        (SyncEngine.build_notion_index cfg pages) meta_map ⟨[], [], [], [], []⟩
        direction dry_run s0 = .ok s0 {} := by
    intro s0
    unfold SyncEngine.apply_all SyncEngine.apply_creates_updates
    simp [SyncEngine.creates_in_sheets_loop, SyncEngine.creates_in_notion_loop,
      SyncEngine.updates_sheets_loop, SyncEngine.updates_notion_loop,
      SyncEngine.conflicts_loop, PhaseRes.andThen]
  rw [run_valid_eq cfg ad sheet_rows meta_map pages direction dry_run hdir, hdrez, happly]
  exact ⟨rfl, rfl⟩

def pageA6 : Page :=
  { id := Option.some "pa6"
    last_edited_time := Option.some "T1"
    properties := [("K", Option.some "a"), ("V", Option.some "1")] }

def nrowA6 : Row :=
  [("K", .str "a"), ("V", .str "1"),
   ("__notion_page_id__", .str "pa6"), ("__notion_last_edited__", .str "T1")]

/-- C6 witness: one key with equal values on both sides yields the all-zero
summary and an empty write log. -/
theorem C6_idempotence_witness :
    (SyncEngine.run cfgW adOkW [rowSW] [] [pageA6] "both" false).1 =
      Except.ok
        { created_in_sheets := 0, created_in_notion := 0, updated_sheets := 0,
          updated_notion := 0, conflicts := [], dry_run := false, direction := "both" } ∧
    (SyncEngine.run cfgW adOkW [rowSW] [] [pageA6] "both" false).2 = World.empty :=
  C6_idempotence cfgW adOkW [rowSW] [] [pageA6] "both" false (Or.inl rfl)
    (by
      intro k
      have hS : SyncEngine.build_index_by_key cfgW [rowSW] = [("a", rowSW)] := by decide
      have hN : SyncEngine.build_notion_index cfgW [pageA6] = [("a", nrowA6)] := by decide
      rw [hS, hN]
      by_cases h : "a" = k <;> simp [lookupKey, h])
    (by
      intro k rs rn hrs hrn
      have hS : SyncEngine.build_index_by_key cfgW [rowSW] = [("a", rowSW)] := by decide
      have hN : SyncEngine.build_notion_index cfgW [pageA6] = [("a", nrowA6)] := by decide
      rw [hS] at hrs
      rw [hN] at hrn
      by_cases h : "a" = k
      · simp [lookupKey, h] at hrs hrn
        rw [← hrs, ← hrn]
        decide
      · simp [lookupKey, h] at hrs)

theorem apply_creates_updates_dry (cfg : AppConfig) (ad : Adapters) (S N : Idx)
    (M : List (String × MetaRecord)) (d : DiffResult) (direction : String) (s0 : Summary) :
    SyncEngine.apply_creates_updates cfg ad S N M d direction true s0 = .ok
      { s0 with
        created_in_sheets := s0.created_in_sheets +
          (if direction = "both" ∨ direction = "to-sheets" then d.to_create_in_sheets.length else 0)
        created_in_notion := s0.created_in_notion +
          (if direction = "both" ∨ direction = "to-notion" then d.to_create_in_notion.length else 0)
        updated_sheets := s0.updated_sheets +
          (if direction = "both" ∨ direction = "to-sheets" then d.to_update_sheets.length else 0)
        updated_notion := s0.updated_notion +
          (if direction = "both" ∨ direction = "to-notion" then d.to_update_notion.length else 0) }
      World.empty := by
  by_cases hc1 : direction = "both" ∨ direction = "to-sheets" <;>
    by_cases hc2 : direction = "both" ∨ direction = "to-notion" <;>
      simp [SyncEngine.apply_creates_updates, hc1, hc2, PhaseRes.andThen,
        creates_in_sheets_loop_dry, creates_in_notion_loop_dry,
        updates_sheets_loop_dry, updates_notion_loop_dry, World.empty]

theorem apply_creates_updates_allOk (cfg : AppConfig) (ad : Adapters) (S N : Idx)
    (M : List (String × MetaRecord)) (d : DiffResult) (direction : String)
    (hok : ad.allOk) (s0 : Summary) :
    ∃ w4, SyncEngine.apply_creates_updates cfg ad S N M d direction false s0 = .ok
      { s0 with
        created_in_sheets := s0.created_in_sheets +
          (if direction = "both" ∨ direction = "to-sheets" then d.to_create_in_sheets.length else 0)
        created_in_notion := s0.created_in_notion +
          (if direction = "both" ∨ direction = "to-notion" then d.to_create_in_notion.length else 0)
        updated_sheets := s0.updated_sheets +
          (if direction = "both" ∨ direction = "to-sheets" then d.to_update_sheets.length else 0)
        updated_notion := s0.updated_notion +
          (if direction = "both" ∨ direction = "to-notion" then d.to_update_notion.length else 0) }
      w4 := by
  by_cases hc1 : direction = "both" ∨ direction = "to-sheets" <;>
    by_cases hc2 : direction = "both" ∨ direction = "to-notion"
  · obtain ⟨w1, h1⟩ := @creates_in_sheets_loop_allOk cfg ad N hok d.to_create_in_sheets s0 {}
    obtain ⟨w2, h2⟩ := @creates_in_notion_loop_allOk cfg ad S hok d.to_create_in_notion
      { s0 with created_in_sheets := s0.created_in_sheets + d.to_create_in_sheets.length } w1
    obtain ⟨w3, h3⟩ := @updates_sheets_loop_allOk cfg ad N hok d.to_update_sheets
      { s0 with created_in_sheets := s0.created_in_sheets + d.to_create_in_sheets.length
                created_in_notion := s0.created_in_notion + d.to_create_in_notion.length } w2
    obtain ⟨w4, h4⟩ := @updates_notion_loop_allOk cfg ad S N M hok d.to_update_notion
      { s0 with created_in_sheets := s0.created_in_sheets + d.to_create_in_sheets.length
                created_in_notion := s0.created_in_notion + d.to_create_in_notion.length
                updated_sheets := s0.updated_sheets + d.to_update_sheets.length } w3
    exact ⟨w4, by simp [SyncEngine.apply_creates_updates, hc1, hc2, PhaseRes.andThen,
      h1, h2, h3, h4]⟩
  · obtain ⟨w1, h1⟩ := @creates_in_sheets_loop_allOk cfg ad N hok d.to_create_in_sheets s0 {}
    obtain ⟨w3, h3⟩ := @updates_sheets_loop_allOk cfg ad N hok d.to_update_sheets
      { s0 with created_in_sheets := s0.created_in_sheets + d.to_create_in_sheets.length } w1
    exact ⟨w3, by simp [SyncEngine.apply_creates_updates, hc1, hc2, PhaseRes.andThen,
      h1, h3]⟩
  · obtain ⟨w2, h2⟩ := @creates_in_notion_loop_allOk cfg ad S hok d.to_create_in_notion s0 {}
    obtain ⟨w4, h4⟩ := @updates_notion_loop_allOk cfg ad S N M hok d.to_update_notion
      { s0 with created_in_notion := s0.created_in_notion + d.to_create_in_notion.length } w2
    exact ⟨w4, by simp [SyncEngine.apply_creates_updates, hc1, hc2, PhaseRes.andThen,
      h2, h4]⟩
  · exact ⟨{}, by simp [SyncEngine.apply_creates_updates, hc1, hc2, PhaseRes.andThen]⟩

theorem conflicts_loop_dry_wet (cfg : AppConfig) (ad : Adapters) (S N : Idx)
    (M : List (String × MetaRecord)) (direction : String) (hok : ad.allOk)
    (ks : List String) (s : Summary) (w wd : World) :
    ∃ s' w', SyncEngine.conflicts_loop cfg ad S N M direction false ks s w = .ok s' w' ∧
      SyncEngine.conflicts_loop cfg ad S N M direction true ks { s with dry_run := true } wd =
        .ok { s' with dry_run := true } wd := by
  by_cases hfail : cfg.sync.conflict_strategy = "fail"
  · refine ⟨{ s with conflicts := s.conflicts ++ ks }, w,
      conflicts_loop_fail hfail ks s w, ?_⟩
    rw [conflicts_loop_fail hfail]
  · by_cases hnw : cfg.sync.conflict_strategy = "notion_wins"
    · by_cases hd : direction = "both" ∨ direction = "to-sheets"
      · obtain ⟨w', hw', hmono, hcov⟩ :=
          @conflicts_loop_notion_wins_allOk cfg ad S N M direction hnw hd hok ks s w
        refine ⟨{ s with updated_sheets := s.updated_sheets + ks.length }, w', hw', ?_⟩
        rw [conflicts_loop_notion_wins_dry hnw hd]
      · refine ⟨{ s with conflicts := s.conflicts ++ ks }, w,
          conflicts_loop_notion_wins_excluded hnw hd ks s w, ?_⟩
        rw [conflicts_loop_notion_wins_excluded hnw hd]
    · by_cases hsw : cfg.sync.conflict_strategy = "sheets_wins"
      · by_cases hd : direction = "both" ∨ direction = "to-notion"
        · obtain ⟨w', hw', hmono, hcov⟩ :=
            @conflicts_loop_sheets_wins_allOk cfg ad S N M direction hsw hd hok ks s w
          refine ⟨{ s with updated_notion := s.updated_notion + ks.length }, w', hw', ?_⟩
          rw [conflicts_loop_sheets_wins_dry hsw hd]
        · refine ⟨{ s with conflicts := s.conflicts ++ ks }, w,
            conflicts_loop_sheets_wins_excluded hsw hd ks s w, ?_⟩
          rw [conflicts_loop_sheets_wins_excluded hsw hd]
      · refine ⟨s, w, conflicts_loop_other_strategy hfail hnw hsw ks s w, ?_⟩
        rw [conflicts_loop_other_strategy hfail hnw hsw]

theorem apply_all_dry_wet (cfg : AppConfig) (ad : Adapters) (S N : Idx)
    (M : List (String × MetaRecord)) (d : DiffResult) (direction : String)
    (hok : ad.allOk) (s0 : Summary) :
    ∃ s' w', SyncEngine.apply_all cfg ad S N M d direction false s0 = .ok s' w' ∧
      SyncEngine.apply_all cfg ad S N M d direction true { s0 with dry_run := true } =
        .ok { s' with dry_run := true } World.empty := by
  obtain ⟨w4, h4⟩ := apply_creates_updates_allOk cfg ad S N M d direction hok s0
  have h4d := apply_creates_updates_dry cfg ad S N M d direction { s0 with dry_run := true }
  obtain ⟨s', w', hw', hd'⟩ := conflicts_loop_dry_wet cfg ad S N M direction hok d.conflicts
    { s0 with
      created_in_sheets := s0.created_in_sheets +
        (if direction = "both" ∨ direction = "to-sheets" then d.to_create_in_sheets.length else 0)
      created_in_notion := s0.created_in_notion +
        (if direction = "both" ∨ direction = "to-notion" then d.to_create_in_notion.length else 0)
      updated_sheets := s0.updated_sheets +
        (if direction = "both" ∨ direction = "to-sheets" then d.to_update_sheets.length else 0)
      updated_notion := s0.updated_notion +
        (if direction = "both" ∨ direction = "to-notion" then d.to_update_notion.length else 0) }
    w4 World.empty
  refine ⟨s', w', ?_, ?_⟩
  · unfold SyncEngine.apply_all
    rw [h4]
    exact hw'
  · unfold SyncEngine.apply_all
    rw [h4d]
    exact hd'

/-- C7: with the dry-run flag set, a run makes no adapter write and updates no
baseline entry (its write log is empty), while reporting exactly the summary a
real run over the same classification reports (when that run's adapter calls
all succeed), up to the summary's own `dry_run` flag. -/
theorem C7_dry_run_frame (cfg : AppConfig) (ad : Adapters) (sheet_rows : List Row)
    (meta_map : List (String × MetaRecord)) (pages : List Page) (direction : String)
    (hdir : direction = "both" ∨ direction = "to-sheets" ∨ direction = "to-notion")
    (hok : ad.allOk) :
    (SyncEngine.run cfg ad sheet_rows meta_map pages direction true).2 = World.empty ∧
    ∃ s, (SyncEngine.run cfg ad sheet_rows meta_map pages direction false).1 = Except.ok s ∧
      (SyncEngine.run cfg ad sheet_rows meta_map pages direction true).1 =
        Except.ok { s with dry_run := true } := by
  obtain ⟨s', w', hwet, hdry⟩ := apply_all_dry_wet cfg ad
    (SyncEngine.build_index_by_key cfg sheet_rows) (SyncEngine.build_notion_index cfg pages)
    meta_map
    (SyncEngine._diff cfg (SyncEngine.build_index_by_key cfg sheet_rows)
      (SyncEngine.build_notion_index cfg pages) meta_map) direction hok
    { created_in_sheets := 0, created_in_notion := 0, updated_sheets := 0,
      updated_notion := 0, conflicts := [], dry_run := false, direction := direction }
  have hdry2 : SyncEngine.apply_all cfg ad
      (SyncEngine.build_index_by_key cfg sheet_rows) (SyncEngine.build_notion_index cfg pages)
      meta_map
      (SyncEngine._diff cfg (SyncEngine.build_index_by_key cfg sheet_rows)
        (SyncEngine.build_notion_index cfg pages) meta_map) direction true
      { created_in_sheets := 0, created_in_notion := 0, updated_sheets := 0,
        updated_notion := 0, conflicts := [], dry_run := true, direction := direction } =
      .ok { s' with dry_run := true } World.empty := hdry
  rw [run_valid_eq cfg ad sheet_rows meta_map pages direction true hdir,
    run_valid_eq cfg ad sheet_rows meta_map pages direction false hdir, hwet, hdry2]
  exact ⟨rfl, s', rfl, rfl⟩

/-- C7 witness: a concrete dry run with one conflict-classified key and one
key to create in Notion. -/
theorem C7_dry_run_frame_witness :
    (SyncEngine.run cfgW adOkW [rowSW, rowBW] [] [pageW] "both" true).2 = World.empty ∧
    ∃ s, (SyncEngine.run cfgW adOkW [rowSW, rowBW] [] [pageW] "both" false).1 = Except.ok s ∧
      (SyncEngine.run cfgW adOkW [rowSW, rowBW] [] [pageW] "both" true).1 =
        Except.ok { s with dry_run := true } :=
  C7_dry_run_frame cfgW adOkW [rowSW, rowBW] [] [pageW] "both" (Or.inl rfl)
    ⟨fun _ _ _ => rfl, fun _ => rfl, fun _ => rfl, fun _ _ => rfl⟩

theorem conflict_not_elsewhere {cfg : AppConfig} {S N : Idx} {M : List (String × MetaRecord)}
    {k : String} (hk : k ∈ (SyncEngine._diff cfg S N M).conflicts) :
    k ∉ (SyncEngine._diff cfg S N M).to_create_in_sheets ∧
    k ∉ (SyncEngine._diff cfg S N M).to_create_in_notion ∧
    k ∉ (SyncEngine._diff cfg S N M).to_update_sheets ∧
    k ∉ (SyncEngine._diff cfg S N M).to_update_notion := by
  have hclass := (diff_conflicts_mem.mp hk).2
  refine ⟨fun hc => ?_, fun hc => ?_, fun hc => ?_, fun hc => ?_⟩
  · have h2 := (diff_to_create_in_sheets_mem.mp hc).2
    rw [hclass] at h2
    exact SyncAction.noConfusion h2
  · have h2 := (diff_to_create_in_notion_mem.mp hc).2
    rw [hclass] at h2
    exact SyncAction.noConfusion h2
  · have h2 := (diff_to_update_sheets_mem.mp hc).2
    rw [hclass] at h2
    exact SyncAction.noConfusion h2
  · have h2 := (diff_to_update_notion_mem.mp hc).2
    rw [hclass] at h2
    exact SyncAction.noConfusion h2

theorem apply_all_conflicts_appended (cfg : AppConfig) (ad : Adapters) (S N : Idx)
    (M : List (String × MetaRecord)) (d : DiffResult) (direction : String) (dry_run : Bool)
    (k : String) (s0 : Summary)
    (hcl : ∀ s w, SyncEngine.conflicts_loop cfg ad S N M direction dry_run d.conflicts s w =
      .ok { s with conflicts := s.conflicts ++ d.conflicts } w)
    (hk : k ∈ d.conflicts) :
    ∀ s' w', SyncEngine.apply_all cfg ad S N M d direction dry_run s0 = .ok s' w' →
      k ∈ s'.conflicts := by
  intro s' w' h
  unfold SyncEngine.apply_all at h
  obtain ⟨s4, w4, h4, h5⟩ := PhaseRes.andThen_ok_inv h
  rw [hcl] at h5
  cases h5
  exact List.mem_append_right _ hk

theorem apply_all_no_write_general (cfg : AppConfig) (ad : Adapters) (S N : Idx)
    (M : List (String × MetaRecord)) (d : DiffResult) (direction : String) (dry_run : Bool)
    (k : String) (s0 : Summary)
    (h1 : k ∉ d.to_create_in_sheets) (h2 : k ∉ d.to_create_in_notion)
    (h3 : k ∉ d.to_update_sheets) (h4 : k ∉ d.to_update_notion)
    (hcl : ∀ s w, w.hasWriteFor k = false →
      ((SyncEngine.conflicts_loop cfg ad S N M direction dry_run d.conflicts s w).world).hasWriteFor
        k = false) :
    ((SyncEngine.apply_all cfg ad S N M d direction dry_run s0).world).hasWriteFor k = false := by
  unfold SyncEngine.apply_all
  apply PhaseRes.andThen_world_no_write
  · exact apply_creates_updates_no_write s0 h1 h2 h3 h4
  · exact hcl

/-- C5: policy resolution respects the run direction.  Under `sheets_wins`
with a direction that may write to Notion, every conflicted key is written
through the Notion-update path and counted in `updated_notion` (on a run whose
adapter calls succeed), and the summary's conflict list is empty; when the
direction excludes that target, the key is reported in the summary's conflict
list instead and nothing is written for it.  Symmetrically for `notion_wins`
with the Sheets target.  Classification itself never depends on the conflict
policy, so resolution cannot change the action of any non-conflicted key. -/
theorem C5_policy_resolution (cfg : AppConfig) (ad : Adapters) (sheet_rows : List Row)
    (meta_map : List (String × MetaRecord)) (pages : List Page) (direction : String)
    (k : String) (dry_run : Bool) :
    (cfg.sync.conflict_strategy = "sheets_wins" →
      (direction = "both" ∨ direction = "to-notion") → ad.allOk →
      k ∈ (SyncEngine._diff cfg (SyncEngine.build_index_by_key cfg sheet_rows)
        (SyncEngine.build_notion_index cfg pages) meta_map).conflicts →
      ∃ s, (SyncEngine.run cfg ad sheet_rows meta_map pages direction false).1 = Except.ok s ∧
        s.conflicts = [] ∧
        s.updated_notion = (SyncEngine._diff cfg (SyncEngine.build_index_by_key cfg sheet_rows)
            (SyncEngine.build_notion_index cfg pages) meta_map).to_update_notion.length +
          (SyncEngine._diff cfg (SyncEngine.build_index_by_key cfg sheet_rows)
            (SyncEngine.build_notion_index cfg pages) meta_map).conflicts.length ∧
        (SyncEngine.run cfg ad sheet_rows meta_map pages direction false).2.hasNotionWriteFor k =
          true) ∧
    (cfg.sync.conflict_strategy = "sheets_wins" → direction = "to-sheets" →
      k ∈ (SyncEngine._diff cfg (SyncEngine.build_index_by_key cfg sheet_rows)
        (SyncEngine.build_notion_index cfg pages) meta_map).conflicts →
      (∀ s, (SyncEngine.run cfg ad sheet_rows meta_map pages direction dry_run).1 = Except.ok s →
        k ∈ s.conflicts) ∧
      (SyncEngine.run cfg ad sheet_rows meta_map pages direction dry_run).2.hasWriteFor k =
        false) ∧
    (cfg.sync.conflict_strategy = "notion_wins" →
      (direction = "both" ∨ direction = "to-sheets") → ad.allOk →
      k ∈ (SyncEngine._diff cfg (SyncEngine.build_index_by_key cfg sheet_rows)
        (SyncEngine.build_notion_index cfg pages) meta_map).conflicts →
      ∃ s, (SyncEngine.run cfg ad sheet_rows meta_map pages direction false).1 = Except.ok s ∧
        s.conflicts = [] ∧
        s.updated_sheets = (SyncEngine._diff cfg (SyncEngine.build_index_by_key cfg sheet_rows)
            (SyncEngine.build_notion_index cfg pages) meta_map).to_update_sheets.length +
          (SyncEngine._diff cfg (SyncEngine.build_index_by_key cfg sheet_rows)
            (SyncEngine.build_notion_index cfg pages) meta_map).conflicts.length ∧
        (SyncEngine.run cfg ad sheet_rows meta_map pages direction false).2.hasRowWriteFor k =
          true) ∧
    (cfg.sync.conflict_strategy = "notion_wins" → direction = "to-notion" →
      k ∈ (SyncEngine._diff cfg (SyncEngine.build_index_by_key cfg sheet_rows)
        (SyncEngine.build_notion_index cfg pages) meta_map).conflicts →
      (∀ s, (SyncEngine.run cfg ad sheet_rows meta_map pages direction dry_run).1 = Except.ok s →
        k ∈ s.conflicts) ∧
      (SyncEngine.run cfg ad sheet_rows meta_map pages direction dry_run).2.hasWriteFor k =
        false) ∧
    (∀ strat1 strat2 : String, ∀ (S N : Idx) (M : List (String × MetaRecord)),
      SyncEngine._diff ⟨⟨cfg.sync.key, strat1, cfg.sync.mirror_deletes, cfg.sync.columns⟩⟩ S N M =
      SyncEngine._diff ⟨⟨cfg.sync.key, strat2, cfg.sync.mirror_deletes, cfg.sync.columns⟩⟩
        S N M) := by
  refine ⟨?_, ?_, ?_, ?_, ?_⟩
  · intro hstrat hd hok hk
    have hdir : direction = "both" ∨ direction = "to-sheets" ∨ direction = "to-notion" := by
      rcases hd with h | h
      · exact Or.inl h
      · exact Or.inr (Or.inr h)
    obtain ⟨w4, h4⟩ := apply_creates_updates_allOk cfg ad
      (SyncEngine.build_index_by_key cfg sheet_rows) (SyncEngine.build_notion_index cfg pages)
      meta_map
      (SyncEngine._diff cfg (SyncEngine.build_index_by_key cfg sheet_rows)
        (SyncEngine.build_notion_index cfg pages) meta_map) direction hok
      { created_in_sheets := 0, created_in_notion := 0, updated_sheets := 0,
        updated_notion := 0, conflicts := [], dry_run := false, direction := direction }
    obtain ⟨w', hw', hmono, hcov⟩ :=
      @conflicts_loop_sheets_wins_allOk cfg ad (SyncEngine.build_index_by_key cfg sheet_rows)
        (SyncEngine.build_notion_index cfg pages) meta_map direction hstrat hd hok
        (SyncEngine._diff cfg (SyncEngine.build_index_by_key cfg sheet_rows)
          (SyncEngine.build_notion_index cfg pages) meta_map).conflicts
        { created_in_sheets := 0 +
            (if direction = "both" ∨ direction = "to-sheets" then
              (SyncEngine._diff cfg (SyncEngine.build_index_by_key cfg sheet_rows)
                (SyncEngine.build_notion_index cfg pages) meta_map).to_create_in_sheets.length
            else 0)
          created_in_notion := 0 +
            (if direction = "both" ∨ direction = "to-notion" then
              (SyncEngine._diff cfg (SyncEngine.build_index_by_key cfg sheet_rows)
                (SyncEngine.build_notion_index cfg pages) meta_map).to_create_in_notion.length
            else 0)
          updated_sheets := 0 +
            (if direction = "both" ∨ direction = "to-sheets" then
              (SyncEngine._diff cfg (SyncEngine.build_index_by_key cfg sheet_rows)
                (SyncEngine.build_notion_index cfg pages) meta_map).to_update_sheets.length
            else 0)
          updated_notion := 0 +
            (if direction = "both" ∨ direction = "to-notion" then
              (SyncEngine._diff cfg (SyncEngine.build_index_by_key cfg sheet_rows)
                (SyncEngine.build_notion_index cfg pages) meta_map).to_update_notion.length
            else 0)
          conflicts := []
          dry_run := false
          direction := direction } w4
    have happ : SyncEngine.apply_all cfg ad (SyncEngine.build_index_by_key cfg sheet_rows)
        (SyncEngine.build_notion_index cfg pages) meta_map
        (SyncEngine._diff cfg (SyncEngine.build_index_by_key cfg sheet_rows)
          (SyncEngine.build_notion_index cfg pages) meta_map) direction false
        { created_in_sheets := 0, created_in_notion := 0, updated_sheets := 0,
          updated_notion := 0, conflicts := [], dry_run := false, direction := direction } =
        SyncEngine.conflicts_loop cfg ad (SyncEngine.build_index_by_key cfg sheet_rows)
          (SyncEngine.build_notion_index cfg pages) meta_map direction false
          (SyncEngine._diff cfg (SyncEngine.build_index_by_key cfg sheet_rows)
            (SyncEngine.build_notion_index cfg pages) meta_map).conflicts
          { created_in_sheets := 0 +
              (if direction = "both" ∨ direction = "to-sheets" then
                (SyncEngine._diff cfg (SyncEngine.build_index_by_key cfg sheet_rows)
                  (SyncEngine.build_notion_index cfg pages) meta_map).to_create_in_sheets.length
              else 0)
            created_in_notion := 0 +
              (if direction = "both" ∨ direction = "to-notion" then
                (SyncEngine._diff cfg (SyncEngine.build_index_by_key cfg sheet_rows)
                  (SyncEngine.build_notion_index cfg pages) meta_map).to_create_in_notion.length
              else 0)
            updated_sheets := 0 +
              (if direction = "both" ∨ direction = "to-sheets" then
                (SyncEngine._diff cfg (SyncEngine.build_index_by_key cfg sheet_rows)
                  (SyncEngine.build_notion_index cfg pages) meta_map).to_update_sheets.length
              else 0)
            updated_notion := 0 +
              (if direction = "both" ∨ direction = "to-notion" then
                (SyncEngine._diff cfg (SyncEngine.build_index_by_key cfg sheet_rows)
                  (SyncEngine.build_notion_index cfg pages) meta_map).to_update_notion.length
              else 0)
            conflicts := []
            dry_run := false
            direction := direction } w4 := by
      unfold SyncEngine.apply_all
      rw [h4]
      rfl
    rw [run_valid_eq cfg ad sheet_rows meta_map pages direction false hdir, happ, hw']
    refine ⟨_, rfl, rfl, ?_, hcov k hk⟩
    show (0 + (if direction = "both" ∨ direction = "to-notion" then
        (SyncEngine._diff cfg (SyncEngine.build_index_by_key cfg sheet_rows)
          (SyncEngine.build_notion_index cfg pages) meta_map).to_update_notion.length else 0)) + (SyncEngine._diff cfg (SyncEngine.build_index_by_key cfg sheet_rows)
          (SyncEngine.build_notion_index cfg pages) meta_map).conflicts.length =
      (SyncEngine._diff cfg (SyncEngine.build_index_by_key cfg sheet_rows)
          (SyncEngine.build_notion_index cfg pages) meta_map).to_update_notion.length + (SyncEngine._diff cfg (SyncEngine.build_index_by_key cfg sheet_rows)
          (SyncEngine.build_notion_index cfg pages) meta_map).conflicts.length
    rw [if_pos hd]
    omega
  · intro hstrat hdir2 hk
    have hnotd : ¬(direction = "both" ∨ direction = "to-notion") := by
      rw [hdir2]
      decide
    obtain ⟨h1, h2, h3, h4⟩ := conflict_not_elsewhere hk
    have hdir : direction = "both" ∨ direction = "to-sheets" ∨ direction = "to-notion" :=
      Or.inr (Or.inl hdir2)
    have hnw := apply_all_no_write_general cfg ad (SyncEngine.build_index_by_key cfg sheet_rows)
      (SyncEngine.build_notion_index cfg pages) meta_map
      (SyncEngine._diff cfg (SyncEngine.build_index_by_key cfg sheet_rows)
        (SyncEngine.build_notion_index cfg pages) meta_map) direction dry_run k
      { created_in_sheets := 0, created_in_notion := 0, updated_sheets := 0,
        updated_notion := 0, conflicts := [], dry_run := dry_run, direction := direction }
      h1 h2 h3 h4
      (fun s w hw => by
        rw [conflicts_loop_sheets_wins_excluded hstrat hnotd]
        exact hw)
    rw [run_valid_eq cfg ad sheet_rows meta_map pages direction dry_run hdir]
    cases happ : SyncEngine.apply_all cfg ad (SyncEngine.build_index_by_key cfg sheet_rows)
        (SyncEngine.build_notion_index cfg pages) meta_map
        (SyncEngine._diff cfg (SyncEngine.build_index_by_key cfg sheet_rows)
          (SyncEngine.build_notion_index cfg pages) meta_map) direction dry_run
        { created_in_sheets := 0, created_in_notion := 0, updated_sheets := 0,
          updated_notion := 0, conflicts := [], dry_run := dry_run,
          direction := direction } with
    | ok s1 w1 =>
      rw [happ] at hnw
      constructor
      · intro s hs
        dsimp only at hs
        cases hs
        exact apply_all_conflicts_appended cfg ad (SyncEngine.build_index_by_key cfg sheet_rows)
          (SyncEngine.build_notion_index cfg pages) meta_map
          (SyncEngine._diff cfg (SyncEngine.build_index_by_key cfg sheet_rows)
            (SyncEngine.build_notion_index cfg pages) meta_map) direction dry_run k
          { created_in_sheets := 0, created_in_notion := 0, updated_sheets := 0,
            updated_notion := 0, conflicts := [], dry_run := dry_run, direction := direction }
          (fun s w => conflicts_loop_sheets_wins_excluded hstrat hnotd _ s w) hk s1 w1 happ
      · exact hnw
    | err e w1 =>
      rw [happ] at hnw
      constructor
      · intro s hs
        dsimp only at hs
        exact Except.noConfusion hs
      · exact hnw
  · intro hstrat hd hok hk
    have hdir : direction = "both" ∨ direction = "to-sheets" ∨ direction = "to-notion" := by
      rcases hd with h | h
      · exact Or.inl h
      · exact Or.inr (Or.inl h)
    obtain ⟨w4, h4⟩ := apply_creates_updates_allOk cfg ad
      (SyncEngine.build_index_by_key cfg sheet_rows) (SyncEngine.build_notion_index cfg pages)
      meta_map
      (SyncEngine._diff cfg (SyncEngine.build_index_by_key cfg sheet_rows)
        (SyncEngine.build_notion_index cfg pages) meta_map) direction hok
      { created_in_sheets := 0, created_in_notion := 0, updated_sheets := 0,
        updated_notion := 0, conflicts := [], dry_run := false, direction := direction }
    obtain ⟨w', hw', hmono, hcov⟩ :=
      @conflicts_loop_notion_wins_allOk cfg ad (SyncEngine.build_index_by_key cfg sheet_rows)
        (SyncEngine.build_notion_index cfg pages) meta_map direction hstrat hd hok
        (SyncEngine._diff cfg (SyncEngine.build_index_by_key cfg sheet_rows)
          (SyncEngine.build_notion_index cfg pages) meta_map).conflicts
        { created_in_sheets := 0 +
            (if direction = "both" ∨ direction = "to-sheets" then
              (SyncEngine._diff cfg (SyncEngine.build_index_by_key cfg sheet_rows)
                (SyncEngine.build_notion_index cfg pages) meta_map).to_create_in_sheets.length
            else 0)
          created_in_notion := 0 +
            (if direction = "both" ∨ direction = "to-notion" then
              (SyncEngine._diff cfg (SyncEngine.build_index_by_key cfg sheet_rows)
                (SyncEngine.build_notion_index cfg pages) meta_map).to_create_in_notion.length
            else 0)
          updated_sheets := 0 +
            (if direction = "both" ∨ direction = "to-sheets" then
              (SyncEngine._diff cfg (SyncEngine.build_index_by_key cfg sheet_rows)
                (SyncEngine.build_notion_index cfg pages) meta_map).to_update_sheets.length
            else 0)
          updated_notion := 0 +
            (if direction = "both" ∨ direction = "to-notion" then
              (SyncEngine._diff cfg (SyncEngine.build_index_by_key cfg sheet_rows)
                (SyncEngine.build_notion_index cfg pages) meta_map).to_update_notion.length
            else 0)
          conflicts := []
          dry_run := false
          direction := direction } w4
    have happ : SyncEngine.apply_all cfg ad (SyncEngine.build_index_by_key cfg sheet_rows)
        (SyncEngine.build_notion_index cfg pages) meta_map
        (SyncEngine._diff cfg (SyncEngine.build_index_by_key cfg sheet_rows)
          (SyncEngine.build_notion_index cfg pages) meta_map) direction false
        { created_in_sheets := 0, created_in_notion := 0, updated_sheets := 0,
          updated_notion := 0, conflicts := [], dry_run := false, direction := direction } =
        SyncEngine.conflicts_loop cfg ad (SyncEngine.build_index_by_key cfg sheet_rows)
          (SyncEngine.build_notion_index cfg pages) meta_map direction false
          (SyncEngine._diff cfg (SyncEngine.build_index_by_key cfg sheet_rows)
            (SyncEngine.build_notion_index cfg pages) meta_map).conflicts
          { created_in_sheets := 0 +
              (if direction = "both" ∨ direction = "to-sheets" then
                (SyncEngine._diff cfg (SyncEngine.build_index_by_key cfg sheet_rows)
                  (SyncEngine.build_notion_index cfg pages) meta_map).to_create_in_sheets.length
              else 0)
            created_in_notion := 0 +
              (if direction = "both" ∨ direction = "to-notion" then
                (SyncEngine._diff cfg (SyncEngine.build_index_by_key cfg sheet_rows)
                  (SyncEngine.build_notion_index cfg pages) meta_map).to_create_in_notion.length
              else 0)
            updated_sheets := 0 +
              (if direction = "both" ∨ direction = "to-sheets" then
                (SyncEngine._diff cfg (SyncEngine.build_index_by_key cfg sheet_rows)
                  (SyncEngine.build_notion_index cfg pages) meta_map).to_update_sheets.length
              else 0)
            updated_notion := 0 +
              (if direction = "both" ∨ direction = "to-notion" then
                (SyncEngine._diff cfg (SyncEngine.build_index_by_key cfg sheet_rows)
                  (SyncEngine.build_notion_index cfg pages) meta_map).to_update_notion.length
              else 0)
            conflicts := []
            dry_run := false
            direction := direction } w4 := by
      unfold SyncEngine.apply_all
      rw [h4]
      rfl
    rw [run_valid_eq cfg ad sheet_rows meta_map pages direction false hdir, happ, hw']
    refine ⟨_, rfl, rfl, ?_, hcov k hk⟩
    show (0 + (if direction = "both" ∨ direction = "to-sheets" then
        (SyncEngine._diff cfg (SyncEngine.build_index_by_key cfg sheet_rows)
          (SyncEngine.build_notion_index cfg pages) meta_map).to_update_sheets.length else 0)) + (SyncEngine._diff cfg (SyncEngine.build_index_by_key cfg sheet_rows)
          (SyncEngine.build_notion_index cfg pages) meta_map).conflicts.length =
      (SyncEngine._diff cfg (SyncEngine.build_index_by_key cfg sheet_rows)
          (SyncEngine.build_notion_index cfg pages) meta_map).to_update_sheets.length + (SyncEngine._diff cfg (SyncEngine.build_index_by_key cfg sheet_rows)
          (SyncEngine.build_notion_index cfg pages) meta_map).conflicts.length
    rw [if_pos hd]
    omega
  · intro hstrat hdir2 hk
    have hnotd : ¬(direction = "both" ∨ direction = "to-sheets") := by
      rw [hdir2]
      decide
    obtain ⟨h1, h2, h3, h4⟩ := conflict_not_elsewhere hk
    have hdir : direction = "both" ∨ direction = "to-sheets" ∨ direction = "to-notion" :=
      Or.inr (Or.inr hdir2)
    have hnw := apply_all_no_write_general cfg ad (SyncEngine.build_index_by_key cfg sheet_rows)
      (SyncEngine.build_notion_index cfg pages) meta_map
      (SyncEngine._diff cfg (SyncEngine.build_index_by_key cfg sheet_rows)
        (SyncEngine.build_notion_index cfg pages) meta_map) direction dry_run k
      { created_in_sheets := 0, created_in_notion := 0, updated_sheets := 0,
        updated_notion := 0, conflicts := [], dry_run := dry_run, direction := direction }
      h1 h2 h3 h4
      (fun s w hw => by
        rw [conflicts_loop_notion_wins_excluded hstrat hnotd]
        exact hw)
    rw [run_valid_eq cfg ad sheet_rows meta_map pages direction dry_run hdir]
    cases happ : SyncEngine.apply_all cfg ad (SyncEngine.build_index_by_key cfg sheet_rows)
        (SyncEngine.build_notion_index cfg pages) meta_map
        (SyncEngine._diff cfg (SyncEngine.build_index_by_key cfg sheet_rows)
          (SyncEngine.build_notion_index cfg pages) meta_map) direction dry_run
        { created_in_sheets := 0, created_in_notion := 0, updated_sheets := 0,
          updated_notion := 0, conflicts := [], dry_run := dry_run,
          direction := direction } with
    | ok s1 w1 =>
      rw [happ] at hnw
      constructor
      · intro s hs
        dsimp only at hs
        cases hs
        exact apply_all_conflicts_appended cfg ad (SyncEngine.build_index_by_key cfg sheet_rows)
          (SyncEngine.build_notion_index cfg pages) meta_map
          (SyncEngine._diff cfg (SyncEngine.build_index_by_key cfg sheet_rows)
            (SyncEngine.build_notion_index cfg pages) meta_map) direction dry_run k
          { created_in_sheets := 0, created_in_notion := 0, updated_sheets := 0,
            updated_notion := 0, conflicts := [], dry_run := dry_run, direction := direction }
          (fun s w => conflicts_loop_notion_wins_excluded hstrat hnotd _ s w) hk s1 w1 happ
      · exact hnw
    | err e w1 =>
      rw [happ] at hnw
      constructor
      · intro s hs
        dsimp only at hs
        exact Except.noConfusion hs
      · exact hnw
  · intro strat1 strat2 S N M
    rfl

def cfgSW : AppConfig :=
  { sync :=
    { key := "K"
      conflict_strategy := "sheets_wins"
      mirror_deletes := false
      columns := [{ sheet := "K", notion := "K", type := "rich_text" },
                  { sheet := "V", notion := "V", type := "rich_text" }] } }

/-- C5 witness: under `sheets_wins` in direction `both`, a concretely
conflicted key is resolved into a Notion write and counted as a Notion
update, with no unresolved conflicts reported. -/
theorem C5_policy_resolution_witness :
    cfgSW.sync.conflict_strategy = "sheets_wins" ∧
    "a" ∈ (SyncEngine._diff cfgSW (SyncEngine.build_index_by_key cfgSW [rowSW])
      (SyncEngine.build_notion_index cfgSW [pageW]) []).conflicts ∧
    ∃ s, (SyncEngine.run cfgSW adOkW [rowSW] [] [pageW] "both" false).1 = Except.ok s ∧
      s.conflicts = [] ∧
      s.updated_notion = (SyncEngine._diff cfgSW (SyncEngine.build_index_by_key cfgSW [rowSW])
          (SyncEngine.build_notion_index cfgSW [pageW]) []).to_update_notion.length +
        (SyncEngine._diff cfgSW (SyncEngine.build_index_by_key cfgSW [rowSW])
          (SyncEngine.build_notion_index cfgSW [pageW]) []).conflicts.length ∧
      (SyncEngine.run cfgSW adOkW [rowSW] [] [pageW] "both" false).2.hasNotionWriteFor "a" =
        true :=
  ⟨rfl, by decide,
    (C5_policy_resolution cfgSW adOkW [rowSW] [] [pageW] "both" "a" false).1 rfl (Or.inl rfl)
      ⟨fun _ _ _ => rfl, fun _ => rfl, fun _ => rfl, fun _ _ => rfl⟩ (by decide)⟩
